import Mathlib

/-!
Verification of the ArduinoJson variant data model (`src/ArduinoJson/Variant/VariantData.hpp`
and the collection/equality/rebasing code shipped with it).

The embedding keeps the source's structure: a `VariantData` is a content union plus a
`uint8_t` flag byte; collections are head/tail pairs over a chain of `VariantSlot`s.
Pointer values (collection `head_`/`tail_`, slot addresses) are modelled as `Int`
(null pointer = 0).  Machine floats (`JsonFloat`) are modelled as exact rationals;
no claim below depends on rounding.  Code of the repository that is only declared in
the translation unit (flag constants, `StringNode`, string adapters, the `ArrayData`
static helpers, `collectionCopy`, `slotRelease`, the resource manager and the numeric
conversion helpers) is modelled from the specification; each such definition says so
in its doc comment.
-/

namespace ArduinoJsonModel

/-- Modelled from the spec: the flag encoding of `VariantContent.hpp` (not under `src/`).
Per the data model there are ten kind codes selected by `kind`, plus two independent
flag bits: the owned-value bit and the owned-key bit.  The kind codes live in the low
seven bits (`VALUE_MASK`), owned string kinds carry `OWNED_VALUE_BIT`, collection kinds
are marked by the bits of `COLLECTION_MASK`, numeric kinds by `NUMBER_BIT`, and the
owned-key flag is the high bit of the byte. -/
def OWNED_VALUE_BIT : Nat := 0x01

/-- Modelled from the spec: kind code of a null cell. -/
def VALUE_IS_NULL : Nat := 0x00

/-- Modelled from the spec: kind code of a raw (pre-formatted) string; carries the owned-value bit. -/
def VALUE_IS_RAW_STRING : Nat := 0x03

/-- Modelled from the spec: kind code of a borrowed (linked) string. -/
def VALUE_IS_LINKED_STRING : Nat := 0x04

/-- Modelled from the spec: kind code of an owned (arena) string; carries the owned-value bit. -/
def VALUE_IS_OWNED_STRING : Nat := 0x05

/-- Modelled from the spec: kind code of a boolean cell. -/
def VALUE_IS_BOOLEAN : Nat := 0x06

/-- Modelled from the spec: marker bit shared by the numeric kind codes. -/
def NUMBER_BIT : Nat := 0x08

/-- Modelled from the spec: kind code of an unsigned integer cell. -/
def VALUE_IS_UNSIGNED_INTEGER : Nat := 0x08

/-- Modelled from the spec: kind code of a signed integer cell. -/
def VALUE_IS_SIGNED_INTEGER : Nat := 0x0A

/-- Modelled from the spec: kind code of a float cell. -/
def VALUE_IS_FLOAT : Nat := 0x0C

/-- Modelled from the spec: mask covering the two collection kind bits. -/
def COLLECTION_MASK : Nat := 0x60

/-- Modelled from the spec: kind code of an object cell. -/
def VALUE_IS_OBJECT : Nat := 0x20

/-- Modelled from the spec: kind code of an array cell. -/
def VALUE_IS_ARRAY : Nat := 0x40

/-- Modelled from the spec: the owned-key flag bit, the high bit of the flag byte. -/
def OWNED_KEY_BIT : Nat := 0x80

/-- Modelled from the spec: mask selecting the kind code, the complement of `OWNED_KEY_BIT`
in the flag byte (`type()` is `flags_ & VALUE_MASK`). -/
def VALUE_MASK : Nat := 0x7F

/-- Modelled from the spec: an interned, reference-counted, length-prefixed string
allocation handed out by `save_string` (`StringNode.hpp` is not under `src/`).
Only the content is needed by the claims; reference counts live in the resource
manager.  Because the allocation is length-prefixed, the `data` text of a node does
not coincide with the node address itself. -/
structure StringNode where
  data : String
deriving DecidableEq, Repr

mutual

/-- The content union of a value cell (`VariantContent.hpp`, modelled from the spec:
exactly one payload interpretation is valid at a time, selected solely by `kind`).
`JsonFloat` is modelled as `Rat`; pointers inside `CollectionData` as `Int`. -/
inductive VariantContent : Type where
  | asFloat : Rat → VariantContent
  | asBoolean : Bool → VariantContent
  | asUnsignedInteger : Nat → VariantContent
  | asSignedInteger : Int → VariantContent
  | asCollection : CollectionData → VariantContent
  | asOwnedString : StringNode → VariantContent
  | asLinkedString : String → VariantContent

/-- A value cell: content union plus the `uint8_t` flag byte (`VariantData` in the source). -/
inductive VariantData : Type where
  | mk : VariantContent → Nat → VariantData

/-- A linked-list node pairing an optional key with one value cell (`VariantSlot.hpp` is
not under `src/`; modelled from the spec).  `addr` is the slot's arena address (slot
identity); `next` links are relative in this version and need no rebasing, so the chain
is represented directly as the list held by the owning `CollectionData`. -/
inductive VariantSlot : Type where
  | mk : Int → Option String → Bool → VariantData → VariantSlot

/-- The head/tail pair over a slot chain (`CollectionData`).  `head` and `tail` are the
stored pointer values (0 = null); `slots` is the chain reachable from `head` through
the relative `next` links. -/
inductive CollectionData : Type where
  | mk : Int → Int → List VariantSlot → CollectionData

end

namespace VariantData

def content_ : VariantData → VariantContent
  | .mk c _ => c

def flags_ : VariantData → Nat
  | .mk _ f => f

end VariantData

namespace VariantSlot

def addr : VariantSlot → Int
  | .mk a _ _ _ => a

def key : VariantSlot → Option String
  | .mk _ k _ _ => k

def ownsKey : VariantSlot → Bool
  | .mk _ _ o _ => o

def data : VariantSlot → VariantData
  | .mk _ _ _ d => d

end VariantSlot

namespace CollectionData

def head : CollectionData → Int
  | .mk h _ _ => h

def tail : CollectionData → Int
  | .mk _ t _ => t

def slots : CollectionData → List VariantSlot
  | .mk _ _ s => s

end CollectionData

/-- An empty collection, as produced by the `ArrayData` and `CollectionData` constructors. -/
def emptyCollection : CollectionData := .mk 0 0 []

namespace VariantContent

/-- Reads the union member `asBoolean`.  Only meaningful when the stored member is the
boolean one; other cases are unreachable under the kind switch of well-formed cells. -/
def readBoolean : VariantContent → Bool
  | .asBoolean b => b
  | _ => false

/-- Reads the union member `asUnsignedInteger`.  The signed and unsigned integers share
the union's 64-bit integer storage, so reading the unsigned member of a cell that holds
a signed integer yields its two's-complement reinterpretation; the source relies on
this in `asBoolean`. -/
def readUnsignedInteger : VariantContent → Nat
  | .asUnsignedInteger u => u
  | .asSignedInteger i => (i % (2 ^ 64)).toNat
  | _ => 0

/-- Reads the union member `asSignedInteger`.  As with the unsigned read, the two
integer members share the union's 64-bit storage. -/
def readSignedInteger : VariantContent → Int
  | .asSignedInteger i => i
  | .asUnsignedInteger u =>
    if u % 2 ^ 64 < 2 ^ 63 then ((u % 2 ^ 64 : Nat) : Int) else ((u % 2 ^ 64 : Nat) : Int) - 2 ^ 64
  | _ => 0

/-- Reads the union member `asFloat`. -/
def readFloat : VariantContent → Rat
  | .asFloat q => q
  | _ => 0

/-- Reads the union member `asLinkedString`. -/
def readLinkedString : VariantContent → String
  | .asLinkedString s => s
  | _ => ""

/-- Reads the union member `asOwnedString`.  When the active member is a different
pointer (for instance the linked string of a borrowed-string cell), dereferencing the
read `StringNode` pointer inspects bytes the model cannot derive — the spec's string
pool hands out length-prefixed allocations, so the node's `data` never coincides with
a plain character pointer — and the read is modelled as `none`. -/
def readOwnedString : VariantContent → Option StringNode
  | .asOwnedString n => some n
  | _ => none

/-- Reads the union member `asCollection` (shared by the array and object kinds). -/
def readCollection : VariantContent → Option CollectionData
  | .asCollection c => some c
  | _ => none

end VariantContent

namespace VariantData

/-- `type()` — `flags_ & VALUE_MASK`. -/
def type (v : VariantData) : Nat := v.flags_ &&& VALUE_MASK

def isNull (v : VariantData) : Bool := v.type == VALUE_IS_NULL

def isBoolean (v : VariantData) : Bool := v.type == VALUE_IS_BOOLEAN

def isArray (v : VariantData) : Bool := v.flags_ &&& VALUE_IS_ARRAY != 0

def isObject (v : VariantData) : Bool := v.flags_ &&& VALUE_IS_OBJECT != 0

def isCollection (v : VariantData) : Bool := v.flags_ &&& COLLECTION_MASK != 0

def isFloat (v : VariantData) : Bool := v.flags_ &&& NUMBER_BIT != 0

def isString (v : VariantData) : Bool :=
  v.type == VALUE_IS_LINKED_STRING || v.type == VALUE_IS_OWNED_STRING

/-- `setType(t)` — `flags_ &= OWNED_KEY_BIT; flags_ |= t`. -/
def setType (v : VariantData) (t : Nat) : VariantData :=
  .mk v.content_ ((v.flags_ &&& OWNED_KEY_BIT) ||| t)

/-- `operator=` — copies the content and all flags except that the destination keeps
its own owned-key bit (`~OWNED_KEY_BIT` on a `uint8_t` is `0x7F`). -/
def assign (v src : VariantData) : VariantData :=
  .mk src.content_ ((v.flags_ &&& OWNED_KEY_BIT) ||| (src.flags_ &&& 0x7F))

/-- A default-constructed cell: `flags_(VALUE_IS_NULL)` with an uninitialized content
union (the model picks an arbitrary member; a null cell's payload is never read). -/
def null : VariantData := .mk (.asBoolean false) VALUE_IS_NULL

def setBoolean (v : VariantData) (b : Bool) : VariantData :=
  .mk (.asBoolean b) ((v.setType VALUE_IS_BOOLEAN).flags_)

def setFloat (v : VariantData) (q : Rat) : VariantData :=
  .mk (.asFloat q) ((v.setType VALUE_IS_FLOAT).flags_)

def setNull (v : VariantData) : VariantData := v.setType VALUE_IS_NULL

def setLinkedString (v : VariantData) (s : String) : VariantData :=
  .mk (.asLinkedString s) ((v.setType VALUE_IS_LINKED_STRING).flags_)

def setOwnedString (v : VariantData) (n : StringNode) : VariantData :=
  .mk (.asOwnedString n) ((v.setType VALUE_IS_OWNED_STRING).flags_)

def setRawString (v : VariantData) (n : StringNode) : VariantData :=
  .mk (.asOwnedString n) ((v.setType VALUE_IS_RAW_STRING).flags_)

/-- `toArray()` — sets the array kind and placement-news a fresh empty collection. -/
def toArray (v : VariantData) : VariantData :=
  .mk (.asCollection emptyCollection) ((v.setType VALUE_IS_ARRAY).flags_)

/-- `toObject()` — sets the object kind and placement-news a fresh empty collection. -/
def toObject (v : VariantData) : VariantData :=
  .mk (.asCollection emptyCollection) ((v.setType VALUE_IS_OBJECT).flags_)

/-- `asBoolean()` — the kind switch of the source: booleans return the stored flag,
integers and floats test against zero (the signed case deliberately reads the unsigned
union member), null returns `false`, and every remaining kind falls into the `default`
branch returning `true`. -/
def asBoolean (v : VariantData) : Bool :=
  if v.type == VALUE_IS_BOOLEAN then v.content_.readBoolean
  else if v.type == VALUE_IS_SIGNED_INTEGER || v.type == VALUE_IS_UNSIGNED_INTEGER then
    v.content_.readUnsignedInteger != 0
  else if v.type == VALUE_IS_FLOAT then v.content_.readFloat != 0
  else if v.type == VALUE_IS_NULL then false
  else true

/-- `asArray()` — the collection payload when the array bit is set, else null.
A cell whose flag byte claims a collection while the union holds another member is
out of contract; the model returns `none` for such a punned read as well. -/
def asArray (v : VariantData) : Option CollectionData :=
  if v.isArray then v.content_.readCollection else none

/-- `asObject()` — the collection payload when the object bit is set, else null. -/
def asObject (v : VariantData) : Option CollectionData :=
  if v.isObject then v.content_.readCollection else none

/-- `asCollection()` — the collection payload when either collection bit is set. -/
def asCollection (v : VariantData) : Option CollectionData :=
  if v.isCollection then v.content_.readCollection else none

end VariantData

/-- Decimal value of a digit character (code points 48-57). -/
def charDigit (c : Char) : Option Nat :=
  if 48 ≤ c.toNat ∧ c.toNat ≤ 57 then some (c.toNat - 48) else none

/-- Value of a run of decimal digits, left to right; `none` on a non-digit. -/
def digitsValAux (acc : Nat) : List Char → Option Nat
  | [] => some acc
  | c :: rest =>
    match charDigit c with
    | some d => digitsValAux (acc * 10 + d) rest
    | none => none

/-- Value of a non-empty all-digit character run, `none` otherwise. -/
def digitsVal (l : List Char) : Option Nat :=
  if l.isEmpty then none else digitsValAux 0 l

/-- Modelled from the spec: `parse_number<T>(text)` for an integral `T` — the
best-effort decimal text-to-number parse of the external numeric-text collaborator,
returning zero on unparseable text. -/
def parseIntegral (s : String) : Int :=
  match s.data with
  | '-' :: rest => -(((digitsVal rest).map Int.ofNat).getD 0)
  | l => ((digitsVal l).map Int.ofNat).getD 0

/-- Characters before the first dot, and those after it when a dot is present. -/
def splitDot : List Char → List Char × Option (List Char)
  | [] => ([], none)
  | c :: rest =>
    if c = '.' then ([], some rest)
    else
      let r := splitDot rest
      (c :: r.1, r.2)

/-- Parse of an unsigned decimal text with an optional fractional part. -/
def parseFloatCore (l : List Char) : Rat :=
  match splitDot l with
  | (ip, none) => ((digitsVal ip).map (fun n => (n : Rat))).getD 0
  | (ip, some fp) =>
    match digitsVal ip, digitsVal fp with
    | some a, some b => (a : Rat) + (b : Rat) / ((10 : Rat) ^ fp.length)
    | _, _ => 0

/-- Modelled from the spec: `parse_number<T>(text)` for a floating-point `T`, with the
float modelled as an exact rational; zero on unparseable text. -/
def parseFloatText (s : String) : Rat :=
  match s.data with
  | '-' :: rest => -(parseFloatCore rest)
  | l => parseFloatCore l

/-- Modelled from the spec: `convert_number<T>(value)` from an unsigned 64-bit value to
a signed 64-bit `T` — the saturating/truncating cross-numeric-type conversion of the
external collaborator. -/
def convertUnsignedToIntegral (u : Nat) : Int :=
  if u ≤ 2 ^ 63 - 1 then (u : Int) else 2 ^ 63 - 1

/-- Modelled from the spec: `convert_number<T>(value)` from a float to a signed 64-bit
`T` — truncation toward zero, saturating at the representable range. -/
def convertFloatToIntegral (q : Rat) : Int :=
  let t : Int := q.num / (q.den : Int)
  if t ≤ -(2 ^ 63) then -(2 ^ 63) else if t ≥ 2 ^ 63 - 1 then 2 ^ 63 - 1 else t

namespace VariantData

/-- `asFloat<T>()` — the kind switch of the source.  Both string kinds return
`parseNumber<T>(content_.asOwnedString->data)`: for an owned string that is the
interned text, but for a borrowed (linked) string the union member read is not the
stored one, so the dereferenced bytes are not derivable and the result is `none`.
Every other branch is a defined value. -/
def asFloat (v : VariantData) : Option Rat :=
  if v.type == VALUE_IS_BOOLEAN then some (if v.content_.readBoolean then 1 else 0)
  else if v.type == VALUE_IS_UNSIGNED_INTEGER then some ((v.content_.readUnsignedInteger : Rat))
  else if v.type == VALUE_IS_SIGNED_INTEGER then
    some ((v.content_.readSignedInteger : Rat))
  else if v.type == VALUE_IS_LINKED_STRING || v.type == VALUE_IS_OWNED_STRING then
    (v.content_.readOwnedString).map (fun n => parseFloatText n.data)
  else if v.type == VALUE_IS_FLOAT then some v.content_.readFloat
  else some 0

/-- `asIntegral<T>()` (with `T` the 64-bit `JsonInteger`) — the kind switch of the
source; note that unlike `asFloat` the linked-string branch reads the correct union
member `content_.asLinkedString`. -/
def asIntegral (v : VariantData) : Int :=
  if v.type == VALUE_IS_BOOLEAN then (if v.content_.readBoolean then 1 else 0)
  else if v.type == VALUE_IS_UNSIGNED_INTEGER then
    convertUnsignedToIntegral v.content_.readUnsignedInteger
  else if v.type == VALUE_IS_SIGNED_INTEGER then v.content_.readSignedInteger
  else if v.type == VALUE_IS_LINKED_STRING then parseIntegral v.content_.readLinkedString
  else if v.type == VALUE_IS_OWNED_STRING then
    parseIntegral (((v.content_.readOwnedString).map StringNode.data).getD "")
  else if v.type == VALUE_IS_FLOAT then convertFloatToIntegral v.content_.readFloat
  else 0

end VariantData

/-- `movePointer(p, offset)` — null pointers are left alone, every other pointer value
is shifted by the relocation distance. -/
def movePointer (p : Int) (offset : Int) : Int :=
  if p = 0 then p else p + offset

mutual

/-- `VariantData::movePointers(variantDistance)` — rebases the collection payload when
either collection bit is set; scalar cells are untouched. -/
def VariantData.movePointers : VariantData → Int → VariantData
  | .mk (.asCollection c) f, d =>
    if f &&& COLLECTION_MASK != 0 then .mk (.asCollection (CollectionData.movePointers c d)) f
    else .mk (.asCollection c) f
  | .mk c f, _ => .mk c f

/-- `CollectionData::movePointers(variantDistance)` — rebases `head_` and `tail_`, then
walks the chain from the (already rebased) `head_` rebasing every child cell; when the
rebased head is the null pointer the walk visits nothing. -/
def CollectionData.movePointers : CollectionData → Int → CollectionData
  | .mk h t s, d =>
    .mk (movePointer h d) (movePointer t d)
      (if movePointer h d = 0 then s else movePointersSlots s d)

/-- The per-slot body of the rebase walk: `slot->data()->movePointers(variantDistance)`. -/
def movePointersSlots : List VariantSlot → Int → List VariantSlot
  | [], _ => []
  | .mk a k o dv :: rest, d =>
    .mk a k o (VariantData.movePointers dv d) :: movePointersSlots rest d

end

mutual

/-- All stored pointer values of a document tree: the `head_`/`tail_` of every
collection payload, gathered structurally. -/
def VariantData.pointersOf : VariantData → List Int
  | .mk (.asCollection c) _ => CollectionData.pointersOf c
  | _ => []

/-- All stored pointer values of a collection and its descendants. -/
def CollectionData.pointersOf : CollectionData → List Int
  | .mk h t s => h :: t :: pointersOfSlots s

/-- Pointer values stored in the cells of a slot chain. -/
def pointersOfSlots : List VariantSlot → List Int
  | [] => []
  | .mk _ _ _ dv :: rest => VariantData.pointersOf dv ++ pointersOfSlots rest

end

namespace CollectionData

/-- `CollectionData::add(slot)` — O(1) append through the tail pointer: a non-null tail
gets its `next` set to the new slot which becomes the tail; otherwise the new slot
becomes both head and tail (so the chain reachable from `head_` is exactly the new
singleton). -/
def add (c : CollectionData) (s : VariantSlot) : CollectionData :=
  if c.tail ≠ 0 then .mk c.head s.addr (c.slots ++ [s])
  else .mk s.addr s.addr [s]

/-- `CollectionData::get(key)` — null keys find nothing; otherwise the linear scan
returns the first slot whose key has exactly equal content (a slot with a null key
never matches). -/
def get (c : CollectionData) (key : Option String) : Option VariantSlot :=
  match key with
  | none => none
  | some k => c.slots.find? (fun s => s.key == some k)

/-- `CollectionData::size()` — `slotSize(head_)`, the O(n) count of the chain
(`slotSize` lives in `VariantSlot.hpp`, not under `src/`; modelled from the spec). -/
def size (c : CollectionData) : Nat := c.slots.length

end CollectionData

/-- Numeric kind test used by the comparison rules of the spec. -/
def typeIsNumeric (t : Nat) : Bool :=
  t == VALUE_IS_UNSIGNED_INTEGER || t == VALUE_IS_SIGNED_INTEGER || t == VALUE_IS_FLOAT

namespace VariantData

/-- The exact numeric value of a numeric-kind cell (unsigned, signed or float), as a
rational. -/
def numericValue (v : VariantData) : Rat :=
  if v.type == VALUE_IS_UNSIGNED_INTEGER then (v.content_.readUnsignedInteger : Rat)
  else if v.type == VALUE_IS_SIGNED_INTEGER then (v.content_.readSignedInteger : Rat)
  else v.content_.readFloat

/-- The text of a (linked or owned) string cell, as used by `asString()`. -/
def stringText (v : VariantData) : Option String :=
  if v.type == VALUE_IS_LINKED_STRING then some v.content_.readLinkedString
  else if v.type == VALUE_IS_OWNED_STRING then (v.content_.readOwnedString).map StringNode.data
  else none

/-- The text of a raw-string cell, as used by `asRawString()`. -/
def rawText (v : VariantData) : Option String :=
  if v.type == VALUE_IS_RAW_STRING then (v.content_.readOwnedString).map StringNode.data
  else none

end VariantData

/-- Scalar part of value-cell equality.  Modelled from the spec (§4.3,
`VariantCompare.hpp` is not under `src/`): null equals null, booleans compare by
value, numeric kinds compare by exact numeric value (cross-kind equality exactly when
representable without loss), linked/owned strings compare by text content, raw strings
by their stored text; everything else differs. -/
def scalarEquals (a b : ArduinoJsonModel.VariantData) : Bool :=
  if a.type == VALUE_IS_NULL && b.type == VALUE_IS_NULL then true
  else if a.type == VALUE_IS_BOOLEAN && b.type == VALUE_IS_BOOLEAN then
    a.content_.readBoolean == b.content_.readBoolean
  else if typeIsNumeric a.type && typeIsNumeric b.type then a.numericValue == b.numericValue
  else if a.isString && b.isString then a.stringText == b.stringText
  else if a.type == VALUE_IS_RAW_STRING && b.type == VALUE_IS_RAW_STRING then
    a.rawText == b.rawText
  else false

mutual

/-- Value-cell equality as dispatched by `compare` (modelled from the spec §4.3):
array operands recurse through the ordered element-wise rule, object operands through
`objectEquals`, scalars through `scalarEquals`. -/
def compareEq : VariantData → VariantData → Bool
  | .mk (.asCollection (.mk ha ta sa)) fa, .mk (.asCollection (.mk hb tb sb)) fb =>
    if fa &&& VALUE_MASK == VALUE_IS_ARRAY && fb &&& VALUE_MASK == VALUE_IS_ARRAY then
      arrayEqualsGo sa sb
    else if fa &&& VALUE_MASK == VALUE_IS_OBJECT && fb &&& VALUE_MASK == VALUE_IS_OBJECT then
      objectEqualsGo (.mk hb tb sb) sa 0
    else scalarEquals (.mk (.asCollection (.mk ha ta sa)) fa) (.mk (.asCollection (.mk hb tb sb)) fb)
  | .mk ca fa, .mk cb fb => scalarEquals (.mk ca fa) (.mk cb fb)

/-- The loop of `arrayEquals` (source): both chains ended means equal, one ended means
unequal, otherwise the element pair must compare equal and the walk continues. -/
def arrayEqualsGo : List VariantSlot → List VariantSlot → Bool
  | [], [] => true
  | [], _ :: _ => false
  | _ :: _, [] => false
  | .mk _ _ _ da :: ra, .mk _ _ _ db :: rb => compareEq da db && arrayEqualsGo ra rb

/-- The loop of `objectEquals` (source): every left member's key must be found in the
right collection (first exact-content match) with a compare-equal value, counting the
left members; at the end the count must equal the right collection's size. -/
def objectEqualsGo (rhs : CollectionData) : List VariantSlot → Nat → Bool
  | [], count => count == rhs.size
  | .mk _ k _ da :: rest, count =>
    match rhs.get k with
    | none => false
    | some b => compareEq da b.data && objectEqualsGo rhs rest (count + 1)

end

/-- `arrayEquals(lhs, rhs)` on collection references (source lines 709-723). -/
def arrayEquals (lhs rhs : CollectionData) : Bool := arrayEqualsGo lhs.slots rhs.slots

/-- `objectEquals(lhs, rhs)` (source lines 734-745). -/
def objectEquals (lhs rhs : CollectionData) : Bool := objectEqualsGo rhs lhs.slots 0

/-- Modelled from the spec (§6): the arena/string-pool collaborator.  `freeSlots` is
the stream of slot addresses the arena can still hand out (empty = OutOfMemory),
`pool` the interned strings with their reference counts, and `stringOk` whether
string interning succeeds. -/
structure ResourceManager where
  freeSlots : List Int
  pool : List (String × Nat)
  stringOk : Bool
deriving DecidableEq, Repr

/-- Reference count of an interned string (first entry of that content). -/
def poolCount : List (String × Nat) → String → Nat
  | [], _ => 0
  | (a, k) :: rest, s => if a = s then k else poolCount rest s

/-- Interning step: an already-interned content gets its count incremented, fresh
content is stored with count one. -/
def poolIncr : List (String × Nat) → String → List (String × Nat)
  | [], s => [(s, 1)]
  | (a, k) :: rest, s =>
    if a = s then (a, k + 1) :: rest else (a, k) :: poolIncr rest s

/-- Release step: the count is decremented and the entry freed at zero. -/
def poolDecr : List (String × Nat) → String → List (String × Nat)
  | [], _ => []
  | (a, k) :: rest, s =>
    if a = s then (if k ≤ 1 then rest else (a, k - 1) :: rest)
    else (a, k) :: poolDecr rest s

namespace ResourceManager

/-- Modelled from the spec: `allocate_slot()` — the next free slot address, or
OutOfMemory when the arena is exhausted. -/
def allocSlot (rm : ResourceManager) : Option (Int × ResourceManager) :=
  match rm.freeSlots with
  | [] => none
  | a :: rest => some (a, { rm with freeSlots := rest })

/-- Modelled from the spec: `save_string(bytes)` — returns an interned handle (content
addressed, deduplicated, reference counted) or OutOfMemory. -/
def saveString (rm : ResourceManager) (s : String) : Option (StringNode × ResourceManager) :=
  if rm.stringOk then some (⟨s⟩, { rm with pool := poolIncr rm.pool s }) else none

/-- Modelled from the spec: `release_string(handle)` — decrements the reference count,
freeing the storage at zero. -/
def dereferenceString (rm : ResourceManager) (s : String) : ResourceManager :=
  { rm with pool := poolDecr rm.pool s }

end ResourceManager

mutual

/-- `VariantData::release(resources)` — dereferences the owned string payload when the
owned-value bit is set, then recursively releases every child slot of a collection
payload.  The cell's flags and content bits are not touched. -/
def VariantData.release : VariantData → ResourceManager → ResourceManager
  | .mk (.asCollection (.mk _ _ ss)) f, rm =>
    let rm1 := if f &&& OWNED_VALUE_BIT != 0 then rm.dereferenceString "" else rm
    if f &&& COLLECTION_MASK != 0 then releaseSlots ss rm1 else rm1
  | .mk c f, rm =>
    if f &&& OWNED_VALUE_BIT != 0 then
      rm.dereferenceString (((c.readOwnedString).map StringNode.data).getD "")
    else rm

/-- Modelled from the spec: `slotRelease` (declared in the source, defined elsewhere) —
the removed slot's owned key is dereferenced and its value cell recursively released
(§3 Slot lifecycle, §4.1 release). -/
def releaseSlots : List VariantSlot → ResourceManager → ResourceManager
  | [], rm => rm
  | .mk _ k o dv :: rest, rm =>
    let rm1 := if o then rm.dereferenceString (k.getD "") else rm
    releaseSlots rest (VariantData.release dv rm1)

end

mutual

/-- The switch of `VariantData::copyFrom` after the initial release, for a non-null
source pointer.  Array and object sources deep-copy (modelled from the spec:
`ArrayData::copyFrom` and `collectionCopy` are not under `src/`; each source slot
allocates a new destination slot, object keys are re-interned when owned and shared
when linked, and each child is copied into a fresh null cell); owned and raw string
sources re-intern their text; every other kind is a bitwise copy of content and flags.
A source whose kind byte and union member disagree is out of contract; its punned
collection read is modelled as an empty collection and its punned string read as the
empty string. -/
def VariantData.copyFromData : VariantData → VariantData → ResourceManager →
    Bool × VariantData × ResourceManager
  | self, .mk (.asCollection (.mk h t ss)) f, rm =>
    if f &&& VALUE_MASK == VALUE_IS_ARRAY then
      let r := copySlots false emptyCollection ss rm
      (r.1, .mk (.asCollection r.2.1) (self.toArray).flags_, r.2.2)
    else if f &&& VALUE_MASK == VALUE_IS_OBJECT then
      let r := copySlots true emptyCollection ss rm
      (r.1, .mk (.asCollection r.2.1) (self.toObject).flags_, r.2.2)
    else if f &&& VALUE_MASK == VALUE_IS_OWNED_STRING then
      match rm.saveString "" with
      | none => (false, self, rm)
      | some (n, rm1) => (true, self.setOwnedString n, rm1)
    else if f &&& VALUE_MASK == VALUE_IS_RAW_STRING then
      match rm.saveString "" with
      | none => (false, self, rm)
      | some (n, rm1) => (true, self.setRawString n, rm1)
    else (true, .mk (.asCollection (.mk h t ss)) f, rm)
  | self, .mk c f, rm =>
    if f &&& VALUE_MASK == VALUE_IS_ARRAY then (true, self.toArray, rm)
    else if f &&& VALUE_MASK == VALUE_IS_OBJECT then (true, self.toObject, rm)
    else if f &&& VALUE_MASK == VALUE_IS_OWNED_STRING then
      match rm.saveString (((c.readOwnedString).map StringNode.data).getD "") with
      | none => (false, self, rm)
      | some (n, rm1) => (true, self.setOwnedString n, rm1)
    else if f &&& VALUE_MASK == VALUE_IS_RAW_STRING then
      match rm.saveString (((c.readOwnedString).map StringNode.data).getD "") with
      | none => (false, self, rm)
      | some (n, rm1) => (true, self.setRawString n, rm1)
    else (true, .mk c f, rm)

/-- The copy loop over a source slot chain (modelled from the spec §4.1 `copyFrom`):
allocate a destination slot, duplicate the key (objects only: owned keys are saved
into the destination arena, linked keys shared; `copyKeys` is false for the array
path, which appends keyless slots), copy the child into a fresh null cell, append, and
stop with failure as soon as an allocation fails. -/
def copySlots : Bool → CollectionData → List VariantSlot → ResourceManager →
    Bool × CollectionData × ResourceManager
  | _, acc, [], rm => (true, acc, rm)
  | copyKeys, acc, .mk _ k o dv :: rest, rm =>
    match rm.allocSlot with
    | none => (false, acc, rm)
    | some (a, rm1) =>
      match
        (if copyKeys then
          match k, o with
          | some kk, true => (rm1.saveString kk).map (fun p => ((some p.1.data, true), p.2))
          | some kk, false => some ((some kk, false), rm1)
          | none, _ => some (((none : Option String), false), rm1)
        else some (((none : Option String), false), rm1)) with
      | none => (false, acc, rm1)
      | some (kp, rm2) =>
        let r := VariantData.copyFromData VariantData.null dv rm2
        let acc2 := acc.add (.mk a kp.1 kp.2 r.2.1)
        if r.1 then copySlots copyKeys acc2 rest r.2.2 else (false, acc2, r.2.2)

end

/-- `VariantData::copyFrom(src, resources)` — releases the previous content, becomes
null (successfully) for a null source, and otherwise dispatches on the source kind. -/
def VariantData.copyFrom (self : VariantData) (src : Option VariantData)
    (rm : ResourceManager) : Bool × VariantData × ResourceManager :=
  let rm0 := self.release rm
  match src with
  | none => (true, self.setNull, rm0)
  | some s => VariantData.copyFromData self s rm0

/-- `variantCopyFrom(dst, src, resources)` — a null destination fails with no effect. -/
def variantCopyFrom (dst src : Option VariantData) (rm : ResourceManager) :
    Bool × Option VariantData × ResourceManager :=
  match dst with
  | none => (false, none, rm)
  | some d =>
    let r := d.copyFrom src rm
    (r.1, some r.2.1, r.2.2)

/-- Modelled from the spec: `ArrayData::addElement(array, resources)` (`ArrayData.hpp`
is not under `src/`) — a null array pointer fails; otherwise a slot is allocated from
the arena (null result on OutOfMemory), appended through `CollectionData::add`, and
its fresh null value cell returned for the caller to populate. -/
def ArrayData.addElement (array : Option CollectionData) (rm : ResourceManager) :
    Option VariantData × Option CollectionData × ResourceManager :=
  match array with
  | none => (none, none, rm)
  | some c =>
    match rm.allocSlot with
    | none => (none, some c, rm)
    | some (a, rm1) =>
      (some VariantData.null, some (c.add (.mk a none false VariantData.null)), rm1)

/-- `VariantData::addElement(resources)` — a null cell is first promoted to a fresh
empty array; otherwise the array payload (null for any other kind) is used, and the
static `ArrayData::addElement` does the append. -/
def VariantData.addElement (v : VariantData) (rm : ResourceManager) :
    Option VariantData × VariantData × ResourceManager :=
  let av := if v.isNull then v.toArray else v
  let array := if v.isNull then some emptyCollection else v.asArray
  let r := ArrayData.addElement array rm
  match r.2.1 with
  | none => (r.1, av, r.2.2)
  | some c2 => (r.1, .mk (.asCollection c2) av.flags_, r.2.2)

/-- Modelled from the spec: `CollectionData::getOrAddMember` (not under `src/`) —
fails on an empty key (§4.1: the operation fails if the key is null/empty, with no
allocation attempted), returns the first exact-content match if one exists (never
creating a duplicate), and otherwise allocates a slot, interns the key into the arena
and appends a fresh member. -/
def CollectionData.getOrAddMember (c : CollectionData) (k : String) (rm : ResourceManager) :
    Option VariantData × CollectionData × ResourceManager :=
  if k == "" then (none, c, rm)
  else
    match c.get (some k) with
    | some s => (some s.data, c, rm)
    | none =>
      match rm.allocSlot with
      | none => (none, c, rm)
      | some (a, rm1) =>
        match rm1.saveString k with
        | none => (none, c, rm1)
        | some (n, rm2) =>
          (some VariantData.null, c.add (.mk a (some n.data) true VariantData.null), rm2)

/-- `VariantData::getOrAddMember(key, resources)` — a null key fails immediately (the
cell untouched); otherwise a null cell is first promoted to a fresh empty object, any
other non-object kind fails, and the collection-level lookup-or-append runs. -/
def VariantData.getOrAddMember (v : VariantData) (key : Option String)
    (rm : ResourceManager) : Option VariantData × VariantData × ResourceManager :=
  match key with
  | none => (none, v, rm)
  | some k =>
    let ov := if v.isNull then v.toObject else v
    let obj := if v.isNull then some emptyCollection else v.asObject
    match obj with
    | none => (none, ov, rm)
    | some c =>
      let r := c.getOrAddMember k rm
      (r.1, .mk (.asCollection r.2.1) ov.flags_, r.2.2)

mutual

/-- Number of slots in a document tree (the arena allocations a deep copy needs). -/
def VariantData.slotCount : VariantData → Nat
  | .mk (.asCollection (.mk _ _ ss)) _ => slotsCount ss
  | _ => 0

/-- Number of slots hanging off a slot chain, the chain's own slots included. -/
def slotsCount : List VariantSlot → Nat
  | [] => 0
  | .mk _ _ _ dv :: rest => 1 + VariantData.slotCount dv + slotsCount rest

end

mutual

/-- All slot addresses of a document tree. -/
def VariantData.slotAddrs : VariantData → List Int
  | .mk (.asCollection (.mk _ _ ss)) _ => slotsAddrs ss
  | _ => []

/-- All slot addresses of a slot chain, the chain's own slots included. -/
def slotsAddrs : List VariantSlot → List Int
  | [] => []
  | .mk a _ _ dv :: rest => a :: (VariantData.slotAddrs dv ++ slotsAddrs rest)

end

mutual

/-- Well-formedness of a value cell: the flag byte is a byte, the kind code is one of
the ten kinds, the active union member is the one selected by the kind, and the
integer payloads fit their 64-bit storage.  Null cells may hold any (uninitialized)
payload. -/
def VariantData.wf : VariantData → Bool
  | .mk (.asCollection (.mk _ _ ss)) f =>
    decide (f < 256) &&
    (f &&& VALUE_MASK == VALUE_IS_ARRAY || f &&& VALUE_MASK == VALUE_IS_OBJECT) &&
    slotsWf ss
  | .mk c f =>
    decide (f < 256) &&
    (let t := f &&& VALUE_MASK
     if t == VALUE_IS_NULL then true
     else if t == VALUE_IS_BOOLEAN then (match c with | .asBoolean _ => true | _ => false)
     else if t == VALUE_IS_UNSIGNED_INTEGER then
       (match c with | .asUnsignedInteger u => decide (u < 2 ^ 64) | _ => false)
     else if t == VALUE_IS_SIGNED_INTEGER then
       (match c with
        | .asSignedInteger i => decide (-(2 ^ 63) ≤ i) && decide (i < 2 ^ 63)
        | _ => false)
     else if t == VALUE_IS_FLOAT then (match c with | .asFloat _ => true | _ => false)
     else if t == VALUE_IS_LINKED_STRING then
       (match c with | .asLinkedString _ => true | _ => false)
     else if t == VALUE_IS_OWNED_STRING || t == VALUE_IS_RAW_STRING then
       (match c with | .asOwnedString _ => true | _ => false)
     else false)

/-- Well-formedness of the slots of a chain: addresses are non-null and the held cells
are well formed. -/
def slotsWf : List VariantSlot → Bool
  | [] => true
  | .mk a _ _ dv :: rest => decide (a ≠ 0) && VariantData.wf dv && slotsWf rest

end

mutual

/-- Every object in the tree has members with present, pairwise-distinct keys (the
spec notes duplicate keys may coexist when inserted through low-level paths; this
predicate singles out the documents without them). -/
def VariantData.keysOk : VariantData → Bool
  | .mk (.asCollection (.mk _ _ ss)) f =>
    (if f &&& VALUE_MASK == VALUE_IS_OBJECT then
      ss.all (fun s => s.key.isSome) && decide ((ss.map VariantSlot.key).Nodup)
     else true) && slotsKeysOk ss
  | _ => true

/-- Key discipline of the cells held by a slot chain. -/
def slotsKeysOk : List VariantSlot → Bool
  | [] => true
  | .mk _ _ _ dv :: rest => VariantData.keysOk dv && slotsKeysOk rest

end

/-- Head/tail consistency of a collection: `head_` is the first slot of the chain (null
when empty), `tail_` the last (null when empty), and every slot lives at a non-null
address. -/
def CollectionData.listWf (c : CollectionData) : Bool :=
  c.head == ((c.slots.head?.map VariantSlot.addr).getD 0) &&
  c.tail == ((c.slots.getLast?.map VariantSlot.addr).getD 0) &&
  c.slots.all (fun s => s.addr != 0)

/-- Relation between a slot produced by the deep copy and its source slot: the key
content is preserved (dropped on the keyless array path) and the copied cell is
compare-equal to the source cell. -/
def SlotCopied (copyKeys : Bool) (sc ss : VariantSlot) : Prop :=
  sc.key = (if copyKeys then ss.key else none) ∧ compareEq sc.data ss.data = true

/-! Concrete cells and documents used as inputs of witnesses and counterexamples. -/

/-- A signed-integer cell. -/
def intCell (i : Int) : VariantData := .mk (.asSignedInteger i) VALUE_IS_SIGNED_INTEGER

/-- A boolean cell holding `true`. -/
def boolCellTrue : VariantData := .mk (.asBoolean true) VALUE_IS_BOOLEAN

/-- A borrowed-string cell. -/
def linkedCell (s : String) : VariantData := .mk (.asLinkedString s) VALUE_IS_LINKED_STRING

/-- An owned-string cell. -/
def ownedStringCell (s : String) : VariantData :=
  .mk (.asOwnedString ⟨s⟩) VALUE_IS_OWNED_STRING

/-- An empty array cell. -/
def emptyArrayCell : VariantData := .mk (.asCollection emptyCollection) VALUE_IS_ARRAY

/-- An empty object cell. -/
def emptyObjectCell : VariantData := .mk (.asCollection emptyCollection) VALUE_IS_OBJECT

/-- A boolean cell whose slot key is arena-owned (flag byte `0x86`). -/
def boolCellOwnedKey : VariantData := .mk (.asBoolean false) (VALUE_IS_BOOLEAN + OWNED_KEY_BIT)

/-- The object value of the JSON text with members x:1 then y:2. -/
def objXY : VariantData :=
  .mk (.asCollection (.mk 8 16
    [.mk 8 (some "x") false (intCell 1), .mk 16 (some "y") false (intCell 2)]))
    VALUE_IS_OBJECT

/-- The object value of the JSON text with members y:2 then x:1. -/
def objYX : VariantData :=
  .mk (.asCollection (.mk 8 16
    [.mk 8 (some "y") false (intCell 2), .mk 16 (some "x") false (intCell 1)]))
    VALUE_IS_OBJECT

/-- The object value with the single member x:1. -/
def objX : VariantData :=
  .mk (.asCollection (.mk 8 8 [.mk 8 (some "x") false (intCell 1)])) VALUE_IS_OBJECT

/-- The object value with members x:1, y:2, z:3. -/
def objXYZ : VariantData :=
  .mk (.asCollection (.mk 8 24
    [.mk 8 (some "x") false (intCell 1), .mk 16 (some "y") false (intCell 2),
     .mk 24 (some "z") false (intCell 3)]))
    VALUE_IS_OBJECT

/-- An object built through low-level paths with the key x duplicated (x:1 then x:2),
which the spec allows to coexist. -/
def dupKeyObj : VariantData :=
  .mk (.asCollection (.mk 8 16
    [.mk 8 (some "x") false (intCell 1), .mk 16 (some "x") false (intCell 2)]))
    VALUE_IS_OBJECT

/-- A one-element array whose slot sits at address 16. -/
def arrAt16 : VariantData :=
  .mk (.asCollection (.mk 16 16 [.mk 16 none false (intCell 7)])) VALUE_IS_ARRAY

/-- A resource manager with five free slots, an empty pool, and working interning. -/
def rmFive : ResourceManager := ⟨[40, 48, 56, 64, 72], [], true⟩

/-- A resource manager whose pool holds the interned string abc with two references. -/
def rmAbc : ResourceManager := ⟨[], [("abc", 2)], true⟩

/-! Bit-level helper lemmas about the flag byte. -/

theorem testBit128 (i : Nat) : Nat.testBit 128 i = decide (i = 7) := by
  rcases eq_or_ne i 7 with h7 | h7
  · subst h7; simpa using (Nat.testBit_two_pow_self (n := 7))
  · have := Nat.testBit_two_pow_of_ne (Ne.symm h7)
    simpa [h7] using this

theorem testBit127 (i : Nat) : Nat.testBit 127 i = decide (i < 7) := by
  have h : (127 : Nat) = 2 ^ 7 - 1 := rfl
  rw [h, Nat.testBit_two_pow_sub_one]

theorem testBit_small (t : Nat) (ht : t < 128) (i : Nat) (hi : 7 ≤ i) :
    Nat.testBit t i = false := by
  have h2 : (128 : Nat) ≤ 2 ^ i := by
    calc (128 : Nat) = 2 ^ 7 := rfl
    _ ≤ 2 ^ i := Nat.pow_le_pow_right (by norm_num) hi
  exact Nat.testBit_lt_two_pow (lt_of_lt_of_le ht h2)

theorem or_land_128 (f s : Nat) : ((f &&& 128) ||| (s &&& 127)) &&& 128 = f &&& 128 := by
  apply Nat.eq_of_testBit_eq
  intro i
  simp only [Nat.testBit_lor, Nat.testBit_land, testBit128, testBit127]
  rcases eq_or_ne i 7 with h7 | h7 <;> simp [h7]

theorem or_land_127 (f s : Nat) : ((f &&& 128) ||| (s &&& 127)) &&& 127 = s &&& 127 := by
  apply Nat.eq_of_testBit_eq
  intro i
  simp only [Nat.testBit_lor, Nat.testBit_land, testBit128, testBit127]
  rcases eq_or_ne i 7 with h7 | h7 <;> simp [h7]

theorem or_t_land_128 (f t : Nat) (ht : t < 128) :
    ((f &&& 128) ||| t) &&& 128 = f &&& 128 := by
  apply Nat.eq_of_testBit_eq
  intro i
  simp only [Nat.testBit_lor, Nat.testBit_land, testBit128]
  rcases eq_or_ne i 7 with h7 | h7
  · simp [h7, testBit_small t ht 7 (le_refl 7)]
  · simp [h7]

theorem or_t_land_127 (f t : Nat) (ht : t < 128) : ((f &&& 128) ||| t) &&& 127 = t := by
  apply Nat.eq_of_testBit_eq
  intro i
  simp only [Nat.testBit_lor, Nat.testBit_land, testBit128, testBit127]
  rcases Nat.lt_or_ge i 7 with h7 | h7
  · have h7n : i ≠ 7 := by omega
    simp [h7, h7n]
  · rcases eq_or_ne i 7 with h7e | h7e
    · simp [h7e, testBit_small t ht 7 (le_refl 7)]
    · have hlt : ¬ i < 7 := by omega
      simp [hlt, testBit_small t ht i h7]

/-- C10: the destination's owned-key flag bit is invariant under value mutation —
`operator=` copies the source's content and all non-key flags while the destination
keeps its own owned-key bit, and `setType` (the type change every setter goes through)
clears every flag bit except the owned-key bit before installing the new kind; shown
here also for the `setBoolean` and `toArray` setters. -/
theorem ownedKeyBit_invariant (v src : VariantData) (t : Nat) (ht : t < 128) :
    ((v.assign src).content_ = src.content_ ∧
     (v.assign src).flags_ &&& OWNED_KEY_BIT = v.flags_ &&& OWNED_KEY_BIT ∧
     (v.assign src).flags_ &&& VALUE_MASK = src.flags_ &&& VALUE_MASK) ∧
    ((v.setType t).flags_ &&& OWNED_KEY_BIT = v.flags_ &&& OWNED_KEY_BIT ∧
     (v.setType t).flags_ &&& VALUE_MASK = t) ∧
    ((v.setBoolean true).flags_ &&& OWNED_KEY_BIT = v.flags_ &&& OWNED_KEY_BIT ∧
     (v.setBoolean true).type = VALUE_IS_BOOLEAN) ∧
    ((v.toArray).flags_ &&& OWNED_KEY_BIT = v.flags_ &&& OWNED_KEY_BIT ∧
     (v.toArray).type = VALUE_IS_ARRAY) := by
  refine ⟨⟨rfl, ?_, ?_⟩, ⟨?_, ?_⟩, ⟨?_, ?_⟩, ⟨?_, ?_⟩⟩
  · simpa [VariantData.assign, VariantData.flags_, OWNED_KEY_BIT] using
      or_land_128 v.flags_ src.flags_
  · simpa [VariantData.assign, VariantData.flags_, VALUE_MASK] using
      or_land_127 v.flags_ src.flags_
  · simpa [VariantData.setType, VariantData.flags_, OWNED_KEY_BIT] using
      or_t_land_128 v.flags_ t ht
  · simpa [VariantData.setType, VariantData.flags_, VALUE_MASK] using
      or_t_land_127 v.flags_ t ht
  · simpa [VariantData.setBoolean, VariantData.setType, VariantData.flags_,
      OWNED_KEY_BIT] using or_t_land_128 v.flags_ VALUE_IS_BOOLEAN (by decide)
  · simpa [VariantData.setBoolean, VariantData.setType, VariantData.type,
      VariantData.flags_, VALUE_MASK, VALUE_IS_BOOLEAN] using
      or_t_land_127 v.flags_ 6 (by decide)
  · simpa [VariantData.toArray, VariantData.setType, VariantData.flags_,
      OWNED_KEY_BIT] using or_t_land_128 v.flags_ VALUE_IS_ARRAY (by decide)
  · simpa [VariantData.toArray, VariantData.setType, VariantData.type,
      VariantData.flags_, VALUE_MASK, VALUE_IS_ARRAY] using
      or_t_land_127 v.flags_ 64 (by decide)

/-- Witness for C10: the owned-key-preservation of `operator=` at a concrete pair — a
boolean cell with the owned-key bit set assigned from a plain integer cell. -/
theorem ownedKeyBit_invariant_witness :
    (6 : Nat) < 128 ∧
    (boolCellOwnedKey.assign (intCell 3)).flags_ &&& OWNED_KEY_BIT =
      boolCellOwnedKey.flags_ &&& OWNED_KEY_BIT :=
  ⟨by decide, (ownedKeyBit_invariant boolCellOwnedKey (intCell 3) 6 (by decide)).1.2.1⟩

theorem land_land (f a b : Nat) : f &&& a &&& b = f &&& (a &&& b) := by
  apply Nat.eq_of_testBit_eq
  intro i
  simp [Nat.testBit_land, Bool.and_assoc]

/-- A well-formed cell is exactly one of the ten kinds, with the matching payload. -/
theorem wf_type_cases (c : VariantContent) (f : Nat) (h : (VariantData.mk c f).wf = true) :
    (f &&& 127 = 0) ∨
    (f &&& 127 = 6 ∧ ∃ b, c = .asBoolean b) ∨
    (f &&& 127 = 8 ∧ ∃ u, c = .asUnsignedInteger u ∧ u < 2 ^ 64) ∨
    (f &&& 127 = 10 ∧ ∃ i, c = .asSignedInteger i ∧ -(2 ^ 63) ≤ i ∧ i < 2 ^ 63) ∨
    (f &&& 127 = 12 ∧ ∃ q, c = .asFloat q) ∨
    (f &&& 127 = 4 ∧ ∃ s, c = .asLinkedString s) ∨
    ((f &&& 127 = 5 ∨ f &&& 127 = 3) ∧ ∃ n, c = .asOwnedString n) ∨
    ((f &&& 127 = 64 ∨ f &&& 127 = 32) ∧ ∃ cc, c = .asCollection cc) := by
  cases c with
  | asCollection cc =>
    obtain ⟨ch, ct, cs⟩ := cc
    simp only [VariantData.wf, Bool.and_eq_true, Bool.or_eq_true, beq_iff_eq,
      VALUE_MASK, VALUE_IS_ARRAY, VALUE_IS_OBJECT] at h
    exact Or.inr (Or.inr (Or.inr (Or.inr (Or.inr (Or.inr (Or.inr
      ⟨h.1.2, ⟨⟨ch, ct, cs⟩, rfl⟩⟩))))))
  | asFloat q =>
    simp only [VariantData.wf, Bool.and_eq_true, decide_eq_true_eq] at h
    obtain ⟨-, h⟩ := h
    simp only [VALUE_MASK, VALUE_IS_NULL, VALUE_IS_BOOLEAN, VALUE_IS_UNSIGNED_INTEGER,
      VALUE_IS_SIGNED_INTEGER, VALUE_IS_FLOAT, VALUE_IS_LINKED_STRING,
      VALUE_IS_OWNED_STRING, VALUE_IS_RAW_STRING] at h
    split_ifs at h with h0 h6 h8 h10 h12 h4 h53
    · exact Or.inl (by simpa using h0)
    · exact Or.inr (Or.inr (Or.inr (Or.inr (Or.inl ⟨by simpa using h12, q, rfl⟩))))
  | asBoolean b =>
    simp only [VariantData.wf, Bool.and_eq_true, decide_eq_true_eq] at h
    obtain ⟨-, h⟩ := h
    simp only [VALUE_MASK, VALUE_IS_NULL, VALUE_IS_BOOLEAN, VALUE_IS_UNSIGNED_INTEGER,
      VALUE_IS_SIGNED_INTEGER, VALUE_IS_FLOAT, VALUE_IS_LINKED_STRING,
      VALUE_IS_OWNED_STRING, VALUE_IS_RAW_STRING] at h
    split_ifs at h with h0 h6
    · exact Or.inl (by simpa using h0)
    · exact Or.inr (Or.inl ⟨by simpa using h6, b, rfl⟩)
  | asUnsignedInteger u =>
    simp only [VariantData.wf, Bool.and_eq_true, decide_eq_true_eq] at h
    obtain ⟨-, h⟩ := h
    simp only [VALUE_MASK, VALUE_IS_NULL, VALUE_IS_BOOLEAN, VALUE_IS_UNSIGNED_INTEGER,
      VALUE_IS_SIGNED_INTEGER, VALUE_IS_FLOAT, VALUE_IS_LINKED_STRING,
      VALUE_IS_OWNED_STRING, VALUE_IS_RAW_STRING] at h
    split_ifs at h with h0 h6 h8
    · exact Or.inl (by simpa using h0)
    · exact Or.inr (Or.inr (Or.inl ⟨by simpa using h8, u, rfl, by simpa using h⟩))
  | asSignedInteger i =>
    simp only [VariantData.wf, Bool.and_eq_true, decide_eq_true_eq] at h
    obtain ⟨-, h⟩ := h
    simp only [VALUE_MASK, VALUE_IS_NULL, VALUE_IS_BOOLEAN, VALUE_IS_UNSIGNED_INTEGER,
      VALUE_IS_SIGNED_INTEGER, VALUE_IS_FLOAT, VALUE_IS_LINKED_STRING,
      VALUE_IS_OWNED_STRING, VALUE_IS_RAW_STRING] at h
    split_ifs at h with h0 h6 h8 h10
    · exact Or.inl (by simpa using h0)
    · have hb : (-(2 ^ 63) ≤ i) ∧ i < 2 ^ 63 := by
        simpa [Bool.and_eq_true, decide_eq_true_eq] using h
      exact Or.inr (Or.inr (Or.inr (Or.inl ⟨by simpa using h10, i, rfl, hb.1, hb.2⟩)))
  | asOwnedString n =>
    simp only [VariantData.wf, Bool.and_eq_true, decide_eq_true_eq] at h
    obtain ⟨-, h⟩ := h
    simp only [VALUE_MASK, VALUE_IS_NULL, VALUE_IS_BOOLEAN, VALUE_IS_UNSIGNED_INTEGER,
      VALUE_IS_SIGNED_INTEGER, VALUE_IS_FLOAT, VALUE_IS_LINKED_STRING,
      VALUE_IS_OWNED_STRING, VALUE_IS_RAW_STRING] at h
    split_ifs at h with h0 h6 h8 h10 h12 h4 h53
    · exact Or.inl (by simpa using h0)
    · exact Or.inr (Or.inr (Or.inr (Or.inr (Or.inr (Or.inr (Or.inl
        ⟨by simpa [Bool.or_eq_true] using h53, n, rfl⟩))))))
  | asLinkedString s =>
    simp only [VariantData.wf, Bool.and_eq_true, decide_eq_true_eq] at h
    obtain ⟨-, h⟩ := h
    simp only [VALUE_MASK, VALUE_IS_NULL, VALUE_IS_BOOLEAN, VALUE_IS_UNSIGNED_INTEGER,
      VALUE_IS_SIGNED_INTEGER, VALUE_IS_FLOAT, VALUE_IS_LINKED_STRING,
      VALUE_IS_OWNED_STRING, VALUE_IS_RAW_STRING] at h
    split_ifs at h with h0 h6 h8 h10 h12 h4
    · exact Or.inl (by simpa using h0)
    · exact Or.inr (Or.inr (Or.inr (Or.inr (Or.inr (Or.inl ⟨by simpa using h4, s, rfl⟩)))))

/-- C6 counterexample: the claim says string, array and object kinds coerce to the
false default, but the source's `default` branch returns `true` for all of them. -/
theorem asBoolean_false_default_cex :
    (linkedCell "hello").asBoolean = true ∧ emptyArrayCell.asBoolean = true ∧
    emptyObjectCell.asBoolean = true := by
  decide

/-- C6 as amended: `asBoolean` is total by construction; on a well-formed cell it
returns `false` for Null, the stored flag for booleans, the nonzero test for the three
numeric kinds, and `true` for every remaining kind — linked and owned strings, raw
strings, arrays and objects — rather than a false default. -/
theorem asBoolean_total_characterization (v : VariantData) (hwf : v.wf = true) :
    (v.isNull = true → v.asBoolean = false) ∧
    (∀ b, v.content_ = .asBoolean b → v.type = VALUE_IS_BOOLEAN → v.asBoolean = b) ∧
    (∀ i, v.content_ = .asSignedInteger i → v.type = VALUE_IS_SIGNED_INTEGER →
      (v.asBoolean = true ↔ i ≠ 0)) ∧
    (∀ u, v.content_ = .asUnsignedInteger u → v.type = VALUE_IS_UNSIGNED_INTEGER →
      (v.asBoolean = true ↔ u ≠ 0)) ∧
    (∀ q, v.content_ = .asFloat q → v.type = VALUE_IS_FLOAT →
      (v.asBoolean = true ↔ q ≠ 0)) ∧
    (v.isString = true → v.asBoolean = true) ∧
    (v.type = VALUE_IS_RAW_STRING → v.asBoolean = true) ∧
    (v.isArray = true → v.asBoolean = true) ∧
    (v.isObject = true → v.asBoolean = true) := by
  obtain ⟨c, f⟩ := v
  have hc := wf_type_cases c f hwf
  refine ⟨?_, ?_, ?_, ?_, ?_, ?_, ?_, ?_, ?_⟩
  · intro hn
    have ht : f &&& 127 = 0 := by
      simpa [VariantData.isNull, VariantData.type, VariantData.flags_, VALUE_MASK,
        VALUE_IS_NULL] using hn
    simp [VariantData.asBoolean, VariantData.type, VariantData.flags_, ht,
      VALUE_MASK, VALUE_IS_NULL, VALUE_IS_BOOLEAN, VALUE_IS_SIGNED_INTEGER,
      VALUE_IS_UNSIGNED_INTEGER, VALUE_IS_FLOAT]
  · intro b hcb ht
    have hcb2 : c = .asBoolean b := by simpa [VariantData.content_] using hcb
    have ht2 : f &&& 127 = 6 := by
      simpa [VariantData.type, VariantData.flags_, VALUE_MASK, VALUE_IS_BOOLEAN] using ht
    subst hcb2
    simp [VariantData.asBoolean, VariantData.type, VariantData.flags_,
      VariantData.content_, ht2, VALUE_MASK, VALUE_IS_BOOLEAN,
      VariantContent.readBoolean]
  · intro i hcb ht
    have hcb2 : c = .asSignedInteger i := by simpa [VariantData.content_] using hcb
    have ht2 : f &&& 127 = 10 := by
      simpa [VariantData.type, VariantData.flags_, VALUE_MASK,
        VALUE_IS_SIGNED_INTEGER] using ht
    subst hcb2
    have hb : (-(2 ^ 63) ≤ i) ∧ i < 2 ^ 63 := by
      rcases hc with h | h | h | h | h | h | h | h
      · omega
      · exact absurd h.2.choose_spec (by simp)
      · exact absurd h.2.choose_spec.1 (by simp)
      · obtain ⟨-, j, hj, hb1, hb2⟩ := h
        cases hj
        exact ⟨hb1, hb2⟩
      · exact absurd h.2.choose_spec (by simp)
      · exact absurd h.2.choose_spec (by simp)
      · exact absurd h.2.choose_spec (by simp)
      · exact absurd h.2.choose_spec (by simp)
    obtain ⟨hb1, hb2⟩ := hb
    simp [VariantData.asBoolean, VariantData.type, VariantData.flags_,
      VariantData.content_, ht2, VALUE_MASK, VALUE_IS_BOOLEAN,
      VALUE_IS_SIGNED_INTEGER, VALUE_IS_UNSIGNED_INTEGER, VALUE_IS_FLOAT,
      VALUE_IS_NULL, VariantContent.readUnsignedInteger, bne_iff_ne]
    clear hc hwf hcb ht
    norm_num at hb1 hb2
    rcases lt_trichotomy i 0 with hn | hz | hp
    · have h1 : (i + 18446744073709551616) % (18446744073709551616 : Int) =
          i % 18446744073709551616 := by
        have h := Int.add_mul_emod_self_left (a := i) (b := (18446744073709551616 : Int))
          (c := 1)
        rwa [mul_one] at h
      have h2 : i % (18446744073709551616 : Int) = i + 18446744073709551616 := by
        rw [← h1, Int.emod_eq_of_lt (by omega) (by omega)]
      rw [h2]
      omega
    · subst hz
      simp
    · have h2 : i % (18446744073709551616 : Int) = i :=
        Int.emod_eq_of_lt (by omega) (by omega)
      rw [h2]
      omega
  · intro u hcb ht
    have hcb2 : c = .asUnsignedInteger u := by simpa [VariantData.content_] using hcb
    have ht2 : f &&& 127 = 8 := by
      simpa [VariantData.type, VariantData.flags_, VALUE_MASK,
        VALUE_IS_UNSIGNED_INTEGER] using ht
    subst hcb2
    simp [VariantData.asBoolean, VariantData.type, VariantData.flags_,
      VariantData.content_, ht2, VALUE_MASK, VALUE_IS_BOOLEAN,
      VALUE_IS_SIGNED_INTEGER, VALUE_IS_UNSIGNED_INTEGER,
      VariantContent.readUnsignedInteger]
  · intro q hcb ht
    have hcb2 : c = .asFloat q := by simpa [VariantData.content_] using hcb
    have ht2 : f &&& 127 = 12 := by
      simpa [VariantData.type, VariantData.flags_, VALUE_MASK, VALUE_IS_FLOAT] using ht
    subst hcb2
    simp [VariantData.asBoolean, VariantData.type, VariantData.flags_,
      VariantData.content_, ht2, VALUE_MASK, VALUE_IS_BOOLEAN,
      VALUE_IS_SIGNED_INTEGER, VALUE_IS_UNSIGNED_INTEGER, VALUE_IS_FLOAT,
      VariantContent.readFloat]
  · intro hs
    have ht2 : f &&& 127 = 4 ∨ f &&& 127 = 5 := by
      simpa [VariantData.isString, VariantData.type, VariantData.flags_,
        VALUE_MASK, VALUE_IS_LINKED_STRING, VALUE_IS_OWNED_STRING,
        Bool.or_eq_true] using hs
    rcases ht2 with ht2 | ht2 <;>
      simp [VariantData.asBoolean, VariantData.type, VariantData.flags_, ht2,
        VALUE_MASK, VALUE_IS_BOOLEAN, VALUE_IS_SIGNED_INTEGER,
        VALUE_IS_UNSIGNED_INTEGER, VALUE_IS_FLOAT, VALUE_IS_NULL]
  · intro ht
    have ht2 : f &&& 127 = 3 := by
      simpa [VariantData.type, VariantData.flags_, VALUE_MASK,
        VALUE_IS_RAW_STRING] using ht
    simp [VariantData.asBoolean, VariantData.type, VariantData.flags_, ht2,
      VALUE_MASK, VALUE_IS_BOOLEAN, VALUE_IS_SIGNED_INTEGER,
      VALUE_IS_UNSIGNED_INTEGER, VALUE_IS_FLOAT, VALUE_IS_NULL]
  · intro ha
    have hbit : f &&& 64 ≠ 0 := by
      simpa [VariantData.isArray, VariantData.flags_, VALUE_IS_ARRAY] using ha
    have h64 : f &&& 64 = (f &&& 127) &&& 64 := by
      have he : (127 : Nat) &&& 64 = 64 := by decide
      rw [land_land, he]
    have ht2 : f &&& 127 = 64 := by
      rcases hc with h | h | h | h | h | h | h | h
      · rw [h64, h] at hbit; exact absurd (by decide) hbit
      · rw [h64, h.1] at hbit; exact absurd (by decide) hbit
      · rw [h64, h.1] at hbit; exact absurd (by decide) hbit
      · rw [h64, h.1] at hbit; exact absurd (by decide) hbit
      · rw [h64, h.1] at hbit; exact absurd (by decide) hbit
      · rw [h64, h.1] at hbit; exact absurd (by decide) hbit
      · rcases h.1 with h5 | h3
        · rw [h64, h5] at hbit; exact absurd (by decide) hbit
        · rw [h64, h3] at hbit; exact absurd (by decide) hbit
      · rcases h.1 with hh | hh
        · exact hh
        · rw [h64, hh] at hbit; exact absurd (by decide) hbit
    simp [VariantData.asBoolean, VariantData.type, VariantData.flags_, ht2,
      VALUE_MASK, VALUE_IS_BOOLEAN, VALUE_IS_SIGNED_INTEGER,
      VALUE_IS_UNSIGNED_INTEGER, VALUE_IS_FLOAT, VALUE_IS_NULL]
  · intro ho
    have hbit : f &&& 32 ≠ 0 := by
      simpa [VariantData.isObject, VariantData.flags_, VALUE_IS_OBJECT] using ho
    have h32 : f &&& 32 = (f &&& 127) &&& 32 := by
      have he : (127 : Nat) &&& 32 = 32 := by decide
      rw [land_land, he]
    have ht2 : f &&& 127 = 32 := by
      rcases hc with h | h | h | h | h | h | h | h
      · rw [h32, h] at hbit; exact absurd (by decide) hbit
      · rw [h32, h.1] at hbit; exact absurd (by decide) hbit
      · rw [h32, h.1] at hbit; exact absurd (by decide) hbit
      · rw [h32, h.1] at hbit; exact absurd (by decide) hbit
      · rw [h32, h.1] at hbit; exact absurd (by decide) hbit
      · rw [h32, h.1] at hbit; exact absurd (by decide) hbit
      · rcases h.1 with h5 | h3
        · rw [h32, h5] at hbit; exact absurd (by decide) hbit
        · rw [h32, h3] at hbit; exact absurd (by decide) hbit
      · rcases h.1 with hh | hh
        · rw [h32, hh] at hbit; exact absurd (by decide) hbit
        · exact hh
    simp [VariantData.asBoolean, VariantData.type, VariantData.flags_, ht2,
      VALUE_MASK, VALUE_IS_BOOLEAN, VALUE_IS_SIGNED_INTEGER,
      VALUE_IS_UNSIGNED_INTEGER, VALUE_IS_FLOAT, VALUE_IS_NULL]

/-- Witness for C6: the characterization applied to the concrete well-formed cell
holding the signed integer five. -/
theorem asBoolean_total_characterization_witness :
    (intCell 5).wf = true ∧ ((intCell 5).asBoolean = true ↔ (5 : Int) ≠ 0) :=
  ⟨by decide, (asBoolean_total_characterization (intCell 5) (by decide)).2.2.1 5 rfl rfl⟩

theorem land127_3 : (3 : Nat) &&& 127 = 3 := by decide

theorem land127_4 : (4 : Nat) &&& 127 = 4 := by decide

theorem land127_5 : (5 : Nat) &&& 127 = 5 := by decide

theorem land127_6 : (6 : Nat) &&& 127 = 6 := by decide

theorem land127_8 : (8 : Nat) &&& 127 = 8 := by decide

theorem land127_10 : (10 : Nat) &&& 127 = 10 := by decide

theorem land127_12 : (12 : Nat) &&& 127 = 12 := by decide

theorem land127_32 : (32 : Nat) &&& 127 = 32 := by decide

theorem land127_64 : (64 : Nat) &&& 127 = 64 := by decide

/-- C5: `asIntegral` parses the text of both string kinds and `asFloat` parses the text
of an owned string, but `asFloat` on a borrowed (linked) string reads the wrong union
member (`content_.asOwnedString->data` while the stored member is the plain character
pointer), so it does not parse the cell's text: the type-confused read is `none` in the
model, against the claimed `some (parseFloatText s)`.  The last conjuncts pin the
failing input: a well-formed linked-string cell holding the text 3.14. -/
theorem asFloat_linked_string_divergence :
    (∀ s : String,
      (linkedCell s).asIntegral = parseIntegral s ∧
      (ownedStringCell s).asIntegral = parseIntegral s ∧
      (ownedStringCell s).asFloat = some (parseFloatText s) ∧
      (linkedCell s).asFloat = none) ∧
    (linkedCell "3.14").wf = true ∧ (linkedCell "3.14").isString = true ∧
    (linkedCell "3.14").asFloat = none ∧
    (∀ q : Rat, (linkedCell "3.14").asFloat ≠ some q) := by
  refine ⟨fun s => ⟨?_, ?_, ?_, ?_⟩, by decide, by decide, by decide, ?_⟩
  · simp [VariantData.asIntegral, linkedCell, VariantData.type, VariantData.flags_,
      VariantData.content_, VALUE_IS_LINKED_STRING, VALUE_IS_BOOLEAN,
      VALUE_IS_UNSIGNED_INTEGER, VALUE_IS_SIGNED_INTEGER, VALUE_IS_OWNED_STRING,
      VALUE_IS_FLOAT, VALUE_MASK, land127_4, VariantContent.readLinkedString]
  · simp [VariantData.asIntegral, ownedStringCell, VariantData.type, VariantData.flags_,
      VariantData.content_, VALUE_IS_LINKED_STRING, VALUE_IS_BOOLEAN,
      VALUE_IS_UNSIGNED_INTEGER, VALUE_IS_SIGNED_INTEGER, VALUE_IS_OWNED_STRING,
      VALUE_IS_FLOAT, VALUE_MASK, land127_5, VariantContent.readOwnedString]
  · simp [VariantData.asFloat, ownedStringCell, VariantData.type, VariantData.flags_,
      VariantData.content_, VALUE_IS_LINKED_STRING, VALUE_IS_BOOLEAN,
      VALUE_IS_UNSIGNED_INTEGER, VALUE_IS_SIGNED_INTEGER, VALUE_IS_OWNED_STRING,
      VALUE_IS_FLOAT, VALUE_MASK, land127_5, VariantContent.readOwnedString]
  · simp [VariantData.asFloat, linkedCell, VariantData.type, VariantData.flags_,
      VariantData.content_, VALUE_IS_LINKED_STRING, VALUE_IS_BOOLEAN,
      VALUE_IS_UNSIGNED_INTEGER, VALUE_IS_SIGNED_INTEGER, VALUE_IS_OWNED_STRING,
      VALUE_IS_FLOAT, VALUE_MASK, land127_4, VariantContent.readOwnedString]
  · intro q hq
    have h0 : (linkedCell "3.14").asFloat = none := by decide
    rw [h0] at hq
    exact Option.noConfusion hq

theorem poolCount_eq_zero_of_not_mem (p : List (String × Nat)) (s : String)
    (h : s ∉ p.map Prod.fst) : poolCount p s = 0 := by
  induction p with
  | nil => rfl
  | cons e rest ih =>
    obtain ⟨a, k⟩ := e
    simp only [List.map_cons, List.mem_cons] at h
    push_neg at h
    have hne : ¬ a = s := fun hx => h.1 hx.symm
    simp only [poolCount, if_neg hne]
    exact ih h.2

theorem poolDecr_not_mem (p : List (String × Nat)) (s : String)
    (h : s ∉ p.map Prod.fst) : poolDecr p s = p := by
  induction p with
  | nil => rfl
  | cons e rest ih =>
    obtain ⟨a, k⟩ := e
    simp only [List.map_cons, List.mem_cons] at h
    push_neg at h
    have hne : ¬ a = s := fun hx => h.1 hx.symm
    simp only [poolDecr, if_neg hne]
    rw [ih h.2]

theorem poolCount_decr (p : List (String × Nat)) (s : String)
    (hnd : (p.map Prod.fst).Nodup) : poolCount (poolDecr p s) s = poolCount p s - 1 := by
  induction p with
  | nil => rfl
  | cons e rest ih =>
    obtain ⟨a, k⟩ := e
    simp only [List.map_cons, List.nodup_cons] at hnd
    by_cases has : a = s
    · subst has
      have hrest0 : poolCount rest a = 0 := poolCount_eq_zero_of_not_mem rest a hnd.1
      by_cases hk : k ≤ 1
      · simp [poolDecr, hk, poolCount, hrest0]
      · simp [poolDecr, hk, poolCount]
    · simp only [poolDecr, if_neg has, poolCount, if_neg has]
      exact ih hnd.2

theorem release_owned (n : StringNode) (f : Nat) (hb1 : f &&& 1 = 1)
    (rm : ResourceManager) :
    (VariantData.mk (.asOwnedString n) f).release rm = rm.dereferenceString n.data := by
  simp [VariantData.release, OWNED_VALUE_BIT, hb1, VariantContent.readOwnedString]

/-- C9: `copyFrom` with a null source releases the destination's prior owned payload
(the owned string's reference count drops by one), sets the kind to Null preserving
only the owned-key bit, and returns success; and the `variantCopyFrom` wrapper fails
with no effect when the destination pointer is null. -/
theorem copyFrom_null_source (dst : VariantData) (rm : ResourceManager) :
    ((dst.copyFrom none rm).1 = true ∧
     (dst.copyFrom none rm).2.1.type = VALUE_IS_NULL ∧
     (dst.copyFrom none rm).2.1.isNull = true ∧
     (dst.copyFrom none rm).2.1.flags_ &&& OWNED_KEY_BIT = dst.flags_ &&& OWNED_KEY_BIT ∧
     (dst.copyFrom none rm).2.2 = dst.release rm) ∧
    (∀ n, (rm.pool.map Prod.fst).Nodup → dst.type = VALUE_IS_OWNED_STRING →
      dst.content_ = .asOwnedString n →
      poolCount ((dst.copyFrom none rm).2.2).pool n.data = poolCount rm.pool n.data - 1) ∧
    (∀ src, variantCopyFrom none src rm = (false, none, rm)) := by
  refine ⟨⟨rfl, ?_, ?_, ?_, rfl⟩, ?_, fun _ => rfl⟩
  · show ((dst.flags_ &&& 128) ||| 0) &&& 127 = 0
    simpa using or_t_land_127 dst.flags_ 0 (by decide)
  · show (((dst.flags_ &&& 128) ||| 0) &&& 127 == 0) = true
    have h := or_t_land_127 dst.flags_ 0 (by decide)
    simp only [h]
    rfl
  · show ((dst.flags_ &&& 128) ||| 0) &&& 128 = dst.flags_ &&& 128
    exact or_t_land_128 dst.flags_ 0 (by decide)
  · intro n hnd ht hc
    obtain ⟨c, f⟩ := dst
    have hc2 : c = .asOwnedString n := by simpa [VariantData.content_] using hc
    have ht2 : f &&& 127 = 5 := by
      simpa [VariantData.type, VariantData.flags_, VALUE_MASK,
        VALUE_IS_OWNED_STRING] using ht
    subst hc2
    have hb1 : f &&& 1 = 1 := by
      have h1 : f &&& 1 = (f &&& 127) &&& 1 := by
        have he : (127 : Nat) &&& 1 = 1 := by decide
        rw [land_land, he]
      rw [h1, ht2]
      decide
    show poolCount ((VariantData.mk (.asOwnedString n) f).release rm).pool n.data =
      poolCount rm.pool n.data - 1
    rw [release_owned n f hb1 rm]
    exact poolCount_decr rm.pool n.data hnd

/-- Witness for C9: releasing an owned string abc with two pool references through a
null-source `copyFrom` leaves one reference. -/
theorem copyFrom_null_source_witness :
    (rmAbc.pool.map Prod.fst).Nodup ∧
    poolCount (((ownedStringCell "abc").copyFrom none rmAbc).2.2).pool "abc" =
      poolCount rmAbc.pool "abc" - 1 :=
  ⟨by decide, (copyFrom_null_source (ownedStringCell "abc") rmAbc).2.1
    ⟨"abc"⟩ (by decide) rfl rfl⟩

/-- C2: `addElement` on a non-Null, non-Array cell returns the null reference and
leaves the cell and the arena untouched; on a Null cell (with an available slot) it
promotes the cell to an Array holding exactly the one appended fresh null element,
preserving the owned-key bit, and returns the fresh cell. -/
theorem addElement_promotion (v : VariantData) (rm : ResourceManager) :
    (v.isNull = false → v.isArray = false → v.addElement rm = (none, v, rm)) ∧
    (∀ a rest, v.isNull = true → rm.freeSlots = a :: rest →
      v.addElement rm =
        (some VariantData.null,
         .mk (.asCollection (.mk a a [.mk a none false VariantData.null]))
           ((v.flags_ &&& OWNED_KEY_BIT) ||| VALUE_IS_ARRAY),
         { rm with freeSlots := rest })) := by
  constructor
  · intro hn ha
    simp [VariantData.addElement, hn, ha, VariantData.asArray, ArrayData.addElement]
  · intro a rest hn hfree
    simp [VariantData.addElement, hn, ArrayData.addElement, ResourceManager.allocSlot,
      hfree, CollectionData.add, emptyCollection, CollectionData.tail,
      CollectionData.head, CollectionData.slots, VariantData.toArray,
      VariantData.setType, VariantData.flags_, VariantSlot.addr, OWNED_KEY_BIT,
      VALUE_IS_ARRAY]

/-- Witness for C2: a boolean-true cell rejects `addElement` unchanged; a fresh null
cell is promoted and appended to. -/
theorem addElement_promotion_witness :
    (boolCellTrue.isNull = false ∧ boolCellTrue.isArray = false ∧
      boolCellTrue.addElement rmFive = (none, boolCellTrue, rmFive)) ∧
    (VariantData.null.isNull = true ∧
      VariantData.null.addElement rmFive =
        (some VariantData.null,
         .mk (.asCollection (.mk 40 40 [.mk 40 none false VariantData.null]))
           ((VariantData.null.flags_ &&& OWNED_KEY_BIT) ||| VALUE_IS_ARRAY),
         { rmFive with freeSlots := [48, 56, 64, 72] })) :=
  ⟨⟨by decide, by decide,
    (addElement_promotion boolCellTrue rmFive).1 (by decide) (by decide)⟩,
   ⟨by decide,
    (addElement_promotion VariantData.null rmFive).2 40 [48, 56, 64, 72] (by decide) rfl⟩⟩

/-- C8 counterexample: `getOrAddMember` with the empty (non-null) key on a Null cell
returns the null reference, but the cell does not keep its kind — it is promoted to an
empty Object before the empty key is rejected, since the only guard ahead of the
promotion in the source is `key.isNull()`. -/
theorem getOrAddMember_empty_key_promotes_cex :
    (VariantData.null.getOrAddMember (some "") rmFive).1.isNone = true ∧
    (VariantData.null.getOrAddMember (some "") rmFive).2.1.type = VALUE_IS_OBJECT ∧
    (VariantData.null.getOrAddMember (some "") rmFive).2.1.isNull = false := by
  decide

/-- C8 as amended: a null key fails with the cell and arena untouched; an empty key
also returns the null reference and attempts no allocation, but a Null cell has
already been promoted to an empty Object by then (a non-Null cell is left unchanged). -/
theorem getOrAddMember_key_guard (v : VariantData) (rm : ResourceManager) :
    (v.getOrAddMember none rm = (none, v, rm)) ∧
    ((v.getOrAddMember (some "") rm).1 = none ∧
     (v.getOrAddMember (some "") rm).2.2 = rm ∧
     (v.isNull = true →
       (v.getOrAddMember (some "") rm).2.1 =
         .mk (.asCollection emptyCollection)
           ((v.flags_ &&& OWNED_KEY_BIT) ||| VALUE_IS_OBJECT)) ∧
     (v.isNull = false → (v.getOrAddMember (some "") rm).2.1 = v)) := by
  refine ⟨rfl, ?_, ?_, ?_, ?_⟩
  · by_cases hn : v.isNull = true
    · simp [VariantData.getOrAddMember, hn, CollectionData.getOrAddMember]
    · simp only [Bool.not_eq_true] at hn
      simp only [VariantData.getOrAddMember, hn, Bool.false_eq_true, if_false]
      cases ho : v.asObject with
      | none => rfl
      | some c => simp [CollectionData.getOrAddMember]
  · by_cases hn : v.isNull = true
    · simp [VariantData.getOrAddMember, hn, CollectionData.getOrAddMember]
    · simp only [Bool.not_eq_true] at hn
      simp only [VariantData.getOrAddMember, hn, Bool.false_eq_true, if_false]
      cases ho : v.asObject with
      | none => rfl
      | some c => simp [CollectionData.getOrAddMember]
  · intro hn
    simp [VariantData.getOrAddMember, hn, CollectionData.getOrAddMember,
      VariantData.toObject, VariantData.setType, VariantData.flags_, OWNED_KEY_BIT,
      VALUE_IS_OBJECT]
  · intro hn
    simp only [VariantData.getOrAddMember, hn, Bool.false_eq_true, if_false]
    cases hv : v.asObject with
    | none => rfl
    | some c =>
      obtain ⟨cc, f⟩ := v
      cases cc with
      | asCollection c2 =>
        simp only [VariantData.asObject] at hv
        by_cases hio : (VariantData.mk (.asCollection c2) f).isObject = true
        · rw [if_pos hio] at hv
          simp only [VariantData.content_, VariantContent.readCollection,
            Option.some.injEq] at hv
          subst hv
          simp [CollectionData.getOrAddMember, VariantData.flags_, VariantData.content_]
        · rw [if_neg hio] at hv
          exact absurd hv (by simp)
      | asFloat q =>
        simp [VariantData.asObject, VariantData.content_,
          VariantContent.readCollection, ite_self] at hv
      | asBoolean b =>
        simp [VariantData.asObject, VariantData.content_,
          VariantContent.readCollection, ite_self] at hv
      | asUnsignedInteger u =>
        simp [VariantData.asObject, VariantData.content_,
          VariantContent.readCollection, ite_self] at hv
      | asSignedInteger i =>
        simp [VariantData.asObject, VariantData.content_,
          VariantContent.readCollection, ite_self] at hv
      | asOwnedString n =>
        simp [VariantData.asObject, VariantData.content_,
          VariantContent.readCollection, ite_self] at hv
      | asLinkedString t =>
        simp [VariantData.asObject, VariantData.content_,
          VariantContent.readCollection, ite_self] at hv

/-- Witness for C8: the amended behavior at concrete cells — the Null cell is promoted
to an empty Object by the empty-key call, the integer cell is left unchanged. -/
theorem getOrAddMember_key_guard_witness :
    VariantData.null.isNull = true ∧ (intCell 3).isNull = false ∧
    (VariantData.null.getOrAddMember (some "") rmFive).2.1 =
      .mk (.asCollection emptyCollection)
        ((VariantData.null.flags_ &&& OWNED_KEY_BIT) ||| VALUE_IS_OBJECT) ∧
    ((intCell 3).getOrAddMember (some "") rmFive).2.1 = intCell 3 :=
  ⟨by decide, by decide,
   (getOrAddMember_key_guard VariantData.null rmFive).2.2.2.1 (by decide),
   (getOrAddMember_key_guard (intCell 3) rmFive).2.2.2.2 (by decide)⟩

theorem add_listWf (c : CollectionData) (s : VariantSlot)
    (hc : c.listWf = true) (hs : s.addr ≠ 0) :
    (c.add s).listWf = true ∧ (c.add s).slots = c.slots ++ [s] ∧
    (c.add s).tail = s.addr ∧ (c.add s).size = c.size + 1 := by
  obtain ⟨h, t, slots⟩ := c
  simp only [CollectionData.listWf, CollectionData.head, CollectionData.tail,
    CollectionData.slots, Bool.and_eq_true, beq_iff_eq, List.all_eq_true,
    bne_iff_ne, ne_eq] at hc
  obtain ⟨⟨hh, ht⟩, hall⟩ := hc
  cases slots with
  | nil =>
    have ht0 : t = 0 := by simpa using ht
    have hadd : (CollectionData.mk h t []).add s = .mk s.addr s.addr [s] := by
      simp [CollectionData.add, CollectionData.tail, ht0]
    rw [hadd]
    refine ⟨?_, by simp [CollectionData.slots], by simp [CollectionData.tail],
      by simp [CollectionData.size, CollectionData.slots]⟩
    simp [CollectionData.listWf, CollectionData.head, CollectionData.tail,
      CollectionData.slots, hs]
  | cons s0 rest =>
    have hgl : ∃ x, (s0 :: rest).getLast? = some x ∧ x ∈ s0 :: rest := by
      cases hr : (s0 :: rest).getLast? with
      | none => simp [List.getLast?_eq_none_iff] at hr
      | some x => exact ⟨x, rfl, List.mem_of_mem_getLast? hr⟩
    obtain ⟨x, hx, hxm⟩ := hgl
    have htx : t = x.addr := by
      rw [hx] at ht
      simpa using ht
    have htne : t ≠ 0 := by
      rw [htx]
      exact hall x hxm
    have hh2 : h = s0.addr := by simpa using hh
    have hadd : (CollectionData.mk h t (s0 :: rest)).add s =
        .mk h s.addr (s0 :: rest ++ [s]) := by
      simp [CollectionData.add, CollectionData.tail, htne, CollectionData.head,
        CollectionData.slots]
    rw [hadd]
    refine ⟨?_, by simp [CollectionData.slots], by simp [CollectionData.tail],
      by simp [CollectionData.size, CollectionData.slots]⟩
    simp only [CollectionData.listWf, CollectionData.head, CollectionData.tail,
      CollectionData.slots, Bool.and_eq_true, beq_iff_eq, List.all_eq_true,
      bne_iff_ne, ne_eq]
    refine ⟨⟨?_, ?_⟩, ?_⟩
    · simpa using hh2
    · rw [List.getLast?_concat]
      simp
    · intro y hy
      rcases List.mem_append.mp hy with h1 | h1
      · exact hall y h1
      · have hys : y = s := List.mem_singleton.mp h1
        subst hys
        exact hs

/-- C7: `add` preserves the collection invariant — the tail stays the last node of the
chain from the head, the head is null exactly when the chain is empty — and appending
three slots to an empty collection yields size three, iteration order first-to-last,
and a tail equal to the last appended slot after every append. -/
theorem collection_add_invariant :
    (∀ (c : CollectionData) (s : VariantSlot), c.listWf = true → s.addr ≠ 0 →
      ((c.add s).listWf = true ∧ (c.add s).slots = c.slots ++ [s] ∧
       (c.add s).tail = s.addr ∧ (c.add s).size = c.size + 1 ∧
       ((c.add s).head = 0 ↔ (c.add s).slots = []))) ∧
    (∀ a b k : VariantSlot, a.addr ≠ 0 → b.addr ≠ 0 → k.addr ≠ 0 →
      ((emptyCollection.add a).tail = a.addr ∧
       ((emptyCollection.add a).add b).tail = b.addr ∧
       (((emptyCollection.add a).add b).add k).tail = k.addr ∧
       (((emptyCollection.add a).add b).add k).size = 3 ∧
       (((emptyCollection.add a).add b).add k).slots = [a, b, k] ∧
       (((emptyCollection.add a).add b).add k).head = a.addr)) := by
  constructor
  · intro c s hc hs
    obtain ⟨hwf, hslots, htail, hsize⟩ := add_listWf c s hc hs
    refine ⟨hwf, hslots, htail, hsize, ?_⟩
    rcases hadd : c.add s with ⟨h2, t2, slots2⟩
    rw [hadd] at hwf
    simp only [CollectionData.listWf, CollectionData.head, CollectionData.tail,
      CollectionData.slots, Bool.and_eq_true, beq_iff_eq, List.all_eq_true,
      bne_iff_ne, ne_eq] at hwf
    obtain ⟨⟨hh, -⟩, hall⟩ := hwf
    simp only [CollectionData.head, CollectionData.slots]
    constructor
    · intro h0
      cases hsl : slots2 with
      | nil => rfl
      | cons y ys =>
        rw [hsl] at hh
        simp only [List.head?_cons] at hh
        rw [hsl] at hall
        have hy0 : y.addr = 0 := by
          have := h0 ▸ hh
          simpa using this.symm
        exact absurd hy0 (hall y (List.mem_cons_self y ys))
    · intro hempty
      rw [hempty] at hh
      simpa using hh
  · intro a b k ha hb hk
    simp [CollectionData.add, CollectionData.tail, CollectionData.head,
      CollectionData.slots, CollectionData.size, emptyCollection, ha, hb, hk]

theorem objectEqualsGo_spec (rhs : CollectionData) (slots : List VariantSlot)
    (count : Nat) :
    objectEqualsGo rhs slots count = true ↔
      ((∀ sa ∈ slots, ∃ k b, sa.key = some k ∧
          rhs.slots.find? (fun sb => sb.key == some k) = some b ∧
          compareEq sa.data b.data = true) ∧
        count + slots.length = rhs.size) := by
  induction slots generalizing count with
  | nil => simp [objectEqualsGo]
  | cons sa rest ih =>
    obtain ⟨a0, k0, o0, d0⟩ := sa
    simp only [objectEqualsGo]
    cases k0 with
    | none =>
      simp only [CollectionData.get]
      constructor
      · intro hfalse
        cases hfalse
      · rintro ⟨hall, -⟩
        obtain ⟨k, b, hkey, -, -⟩ := hall _ (List.mem_cons_self _ _)
        simp [VariantSlot.key] at hkey
    | some k =>
      simp only [CollectionData.get]
      cases hf : rhs.slots.find? (fun sb => sb.key == some k) with
      | none =>
        constructor
        · intro hfalse
          cases hfalse
        · rintro ⟨hall, -⟩
          obtain ⟨k2, b, hkey, hfind, -⟩ := hall _ (List.mem_cons_self _ _)
          have hk2 : k2 = k := by simpa [VariantSlot.key] using hkey.symm
          subst hk2
          rw [hf] at hfind
          cases hfind
      | some b =>
        rw [Bool.and_eq_true, ih (count + 1)]
        constructor
        · rintro ⟨hcmp, hall, hcount⟩
          refine ⟨?_, by simp only [List.length_cons]; omega⟩
          intro x hx
          rcases List.mem_cons.mp hx with hx1 | hmem
          · subst hx1
            exact ⟨k, b, by simp [VariantSlot.key], hf, hcmp⟩
          · exact hall x hmem
        · rintro ⟨hall, hcount⟩
          obtain ⟨k2, b2, hkey, hfind, hcmp⟩ := hall _ (List.mem_cons_self _ _)
          have hk2 : k2 = k := by simpa [VariantSlot.key] using hkey.symm
          subst hk2
          rw [hf] at hfind
          have hb2 : b2 = b := by
            injection hfind with hh
            exact hh.symm
          subst hb2
          refine ⟨by simpa [VariantSlot.data] using hcmp,
            fun x hx => hall x (List.mem_cons_of_mem _ hx), ?_⟩
          simp only [List.length_cons] at hcount
          omega

/-- C3: `objectEquals` holds exactly when every member of the left operand has a key
whose first exact-content match in the right operand carries a compare-equal value and
the two member counts agree; member order is immaterial and a missing or extra key
falsifies equality, as the spec's concrete examples show. -/
theorem objectEquals_characterization :
    (∀ lhs rhs : CollectionData,
      objectEquals lhs rhs = true ↔
        ((∀ sa ∈ lhs.slots, ∃ k b, sa.key = some k ∧
            rhs.slots.find? (fun sb => sb.key == some k) = some b ∧
            compareEq sa.data b.data = true) ∧
          lhs.size = rhs.size)) ∧
    compareEq objXY objYX = true ∧ compareEq objYX objXY = true ∧
    compareEq objXY objX = false ∧ compareEq objX objXY = false ∧
    compareEq objXY objXYZ = false ∧ compareEq objXYZ objXY = false := by
  refine ⟨?_, by decide, by decide, by decide, by decide, by decide, by decide⟩
  intro lhs rhs
  rw [objectEquals, objectEqualsGo_spec]
  simp [CollectionData.size]

/-- Witness for C7: the invariant and append order at concrete slots sitting at the
addresses 8, 16 and 24. -/
theorem collection_add_invariant_witness :
    emptyCollection.listWf = true ∧ ((8 : Int) ≠ 0) ∧
    (emptyCollection.add (.mk 8 none false (intCell 1))).listWf = true ∧
    (((emptyCollection.add (.mk 8 none false (intCell 1))).add
        (.mk 16 none false (intCell 2))).add (.mk 24 none false (intCell 3))).slots =
      [.mk 8 none false (intCell 1), .mk 16 none false (intCell 2),
       .mk 24 none false (intCell 3)] :=
  ⟨by decide, by decide,
   (collection_add_invariant.1 emptyCollection (.mk 8 none false (intCell 1))
      (by decide) (by decide)).1,
   ((collection_add_invariant.2 (.mk 8 none false (intCell 1))
      (.mk 16 none false (intCell 2)) (.mk 24 none false (intCell 3))
      (by decide) (by decide) (by decide))).2.2.2.2.1⟩

theorem movePointer_roundtrip (p d : Int) (hp : p ≠ 0 → p + d ≠ 0) :
    movePointer (movePointer p d) (-d) = p := by
  by_cases h0 : p = 0
  · subst h0
    simp [movePointer]
  · simp only [movePointer, if_neg h0]
    rw [if_neg (hp h0)]
    omega

mutual

theorem movePointers_roundtrip_v (v : VariantData) (d : Int)
    (h : ∀ p ∈ VariantData.pointersOf v, p ≠ 0 → p + d ≠ 0) :
    (v.movePointers d).movePointers (-d) = v :=
  match v, h with
  | .mk (.asCollection c) f, h => by
    have hc := movePointers_roundtrip_c c d (by
      intro p hp hp0
      exact h p (by simpa [VariantData.pointersOf] using hp) hp0)
    by_cases hf : (f &&& COLLECTION_MASK != 0) = true
    · simp only [VariantData.movePointers, if_pos hf]
      rw [hc]
    · simp only [VariantData.movePointers, if_neg hf]
  | .mk (.asFloat q) f, _ => by simp [VariantData.movePointers]
  | .mk (.asBoolean b) f, _ => by simp [VariantData.movePointers]
  | .mk (.asUnsignedInteger u) f, _ => by simp [VariantData.movePointers]
  | .mk (.asSignedInteger i) f, _ => by simp [VariantData.movePointers]
  | .mk (.asOwnedString n) f, _ => by simp [VariantData.movePointers]
  | .mk (.asLinkedString s) f, _ => by simp [VariantData.movePointers]

theorem movePointers_roundtrip_c (c : CollectionData) (d : Int)
    (h : ∀ p ∈ CollectionData.pointersOf c, p ≠ 0 → p + d ≠ 0) :
    (c.movePointers d).movePointers (-d) = c :=
  match c, h with
  | .mk hd tl slots, h => by
    have hmem_hd : hd ∈ CollectionData.pointersOf (.mk hd tl slots) := by
      simp [CollectionData.pointersOf]
    have hmem_tl : tl ∈ CollectionData.pointersOf (.mk hd tl slots) := by
      simp [CollectionData.pointersOf]
    have hh : movePointer (movePointer hd d) (-d) = hd :=
      movePointer_roundtrip hd d (h hd hmem_hd)
    have htl : movePointer (movePointer tl d) (-d) = tl :=
      movePointer_roundtrip tl d (h tl hmem_tl)
    simp only [CollectionData.movePointers]
    rw [hh, htl]
    by_cases h0 : movePointer hd d = 0
    · have hd0 : hd = 0 := by
        by_contra hne
        have hne2 := h hd hmem_hd hne
        simp only [movePointer, if_neg hne] at h0
        exact hne2 h0
      rw [if_pos h0, if_pos hd0]
    · have hdne : hd ≠ 0 := by
        intro he
        apply h0
        simp [movePointer, he]
      rw [if_neg h0, if_neg hdne,
        movePointers_roundtrip_s slots d (by
          intro p hp hp0
          refine h p ?_ hp0
          simp only [CollectionData.pointersOf, List.mem_cons]
          exact Or.inr (Or.inr hp))]

theorem movePointers_roundtrip_s (l : List VariantSlot) (d : Int)
    (h : ∀ p ∈ pointersOfSlots l, p ≠ 0 → p + d ≠ 0) :
    movePointersSlots (movePointersSlots l d) (-d) = l :=
  match l, h with
  | [], _ => rfl
  | .mk a k o dv :: rest, h => by
    simp only [movePointersSlots]
    rw [movePointers_roundtrip_v dv d (by
        intro p hp hp0
        refine h p ?_ hp0
        simp only [pointersOfSlots, List.mem_append]
        exact Or.inl hp),
      movePointers_roundtrip_s rest d (by
        intro p hp hp0
        refine h p ?_ hp0
        simp only [pointersOfSlots, List.mem_append]
        exact Or.inr hp)]

end

/-- C1 as amended: rebasing by `d` and then by `-d` restores every pointer of the tree,
provided the distance moves no non-null stored pointer onto the null address (a pointer
landing on address zero is skipped by `movePointer` on the way back, and a collection
whose rebased head is null is not traversed). -/
theorem movePointers_roundtrip (v : VariantData) (d : Int)
    (h : ∀ p ∈ VariantData.pointersOf v, p ≠ 0 → p + d ≠ 0) :
    (v.movePointers d).movePointers (-d) = v :=
  movePointers_roundtrip_v v d h

/-- Witness for C1: the roundtrip at the concrete one-element array whose collection
pointers sit at address 16, with distance 8. -/
theorem movePointers_roundtrip_witness :
    (∀ p ∈ VariantData.pointersOf arrAt16, p ≠ 0 → p + 8 ≠ 0) ∧
    (arrAt16.movePointers 8).movePointers (-8) = arrAt16 :=
  ⟨by decide, movePointers_roundtrip arrAt16 8 (by decide)⟩

/-- C1 counterexample: with distance `-16` the head and tail stored at address 16 are
moved onto the null pointer, the traversal stops, and the reverse pass skips them, so
the roundtrip does not restore the tree — the claim fails for arbitrary distances. -/
theorem movePointers_zero_crossing_cex :
    (arrAt16.movePointers (-16)).movePointers 16 ≠ arrAt16 := by
  intro h
  have hp := congrArg VariantData.pointersOf h
  have h1 : ((arrAt16.movePointers (-16)).movePointers 16).pointersOf = [0, 0] := by
    decide
  have h2 : arrAt16.pointersOf = [16, 16] := by decide
  rw [h1, h2] at hp
  simp at hp

end ArduinoJsonModel

namespace ArduinoJsonModel

theorem forall₂_mem_left {R : VariantSlot → VariantSlot → Prop} :
    ∀ {m l : List VariantSlot}, List.Forall₂ R m l → ∀ x ∈ m, ∃ y ∈ l, R x y := by
  intro m l h
  induction h with
  | nil => intro x hx; cases hx
  | cons hR hrest ih =>
    intro x hx
    rcases List.mem_cons.mp hx with hx1 | hx2
    · subst hx1
      exact ⟨_, List.mem_cons_self _ _, hR⟩
    · obtain ⟨y, hy, hRy⟩ := ih x hx2
      exact ⟨y, List.mem_cons_of_mem _ hy, hRy⟩

theorem arrayEqualsGo_of_copied (ck : Bool) :
    ∀ {m l : List VariantSlot}, List.Forall₂ (SlotCopied ck) m l →
      arrayEqualsGo m l = true := by
  intro m l h
  induction h with
  | nil => rfl
  | cons hR hrest ih =>
    rename_i a b as bs
    obtain ⟨a1, a2, a3, a4⟩ := a
    obtain ⟨b1, b2, b3, b4⟩ := b
    simp only [arrayEqualsGo, Bool.and_eq_true]
    exact ⟨by simpa [VariantSlot.data] using hR.2, ih⟩

theorem find?_unique_key :
    ∀ (l : List VariantSlot) (s : VariantSlot) (k : String), s ∈ l → s.key = some k →
      (l.map VariantSlot.key).Nodup →
      l.find? (fun b => b.key == some k) = some s := by
  intro l
  induction l with
  | nil => intro s k hmem; cases hmem
  | cons h0 rest ih =>
    intro s k hmem hk hnd
    simp only [List.map_cons, List.nodup_cons] at hnd
    rcases List.mem_cons.mp hmem with h1 | h2
    · subst h1
      simp [List.find?, hk]
    · have hne : h0.key ≠ some k := by
        intro he
        apply hnd.1
        rw [he, ← hk]
        exact List.mem_map_of_mem VariantSlot.key h2
      have hne2 : (h0.key == some k) = false := by
        simpa [beq_eq_false_iff_ne] using hne
      simp only [List.find?, hne2]
      exact ih s k h2 hk hnd.2

theorem objectEquals_of_copied (src : CollectionData) (m : List VariantSlot)
    (hf : List.Forall₂ (SlotCopied true) m src.slots)
    (hsome : ∀ s ∈ src.slots, s.key.isSome = true)
    (hnodup : (src.slots.map VariantSlot.key).Nodup) :
    objectEqualsGo src m 0 = true := by
  rw [objectEqualsGo_spec]
  constructor
  · intro sa hsa
    obtain ⟨sb, hsb_mem, hR⟩ := forall₂_mem_left hf sa hsa
    obtain ⟨hkey, hcmp⟩ := hR
    cases hk : sb.key with
    | none =>
      have := hsome sb hsb_mem
      simp [hk] at this
    | some k =>
      refine ⟨k, sb, by simp [hkey, hk], ?_, hcmp⟩
      exact find?_unique_key src.slots sb k hsb_mem hk hnodup
  · have := hf.length_eq
    simp [this, CollectionData.size]

theorem listWf_empty : emptyCollection.listWf = true := by decide

theorem scalarEquals_self (c : VariantContent) (f : Nat)
    (ht : f &&& 127 = 0 ∨ f &&& 127 = 6 ∨ f &&& 127 = 8 ∨ f &&& 127 = 10 ∨
      f &&& 127 = 12 ∨ f &&& 127 = 4 ∨ f &&& 127 = 3 ∨ f &&& 127 = 5) :
    scalarEquals (VariantData.mk c f) (VariantData.mk c f) = true := by
  rcases ht with h | h | h | h | h | h | h | h <;>
    simp [scalarEquals, VariantData.type, VariantData.flags_, h, VALUE_MASK,
      VALUE_IS_NULL, VALUE_IS_BOOLEAN, typeIsNumeric, VALUE_IS_UNSIGNED_INTEGER,
      VALUE_IS_SIGNED_INTEGER, VALUE_IS_FLOAT, VariantData.isString,
      VALUE_IS_LINKED_STRING, VALUE_IS_OWNED_STRING, VALUE_IS_RAW_STRING]


theorem scalarCopy_spec (c : VariantContent) (f : Nat) (self : VariantData)
    (rm : ResourceManager) (hwf : (VariantData.mk c f).wf = true)
    (hstr : rm.stringOk = true) (hnc : ∀ cc, c ≠ .asCollection cc) :
    ((VariantData.copyFromData self (.mk c f) rm).1 = true ∧
     compareEq (VariantData.copyFromData self (.mk c f) rm).2.1 (.mk c f) = true ∧
     (∀ a ∈ (VariantData.copyFromData self (.mk c f) rm).2.1.slotAddrs,
        a ∈ rm.freeSlots) ∧
     (VariantData.copyFromData self (.mk c f) rm).2.2.freeSlots =
       rm.freeSlots.drop (VariantData.mk c f).slotCount ∧
     (VariantData.copyFromData self (.mk c f) rm).2.2.stringOk = rm.stringOk) := by
  obtain ⟨sc, sf⟩ := self
  have hcases := wf_type_cases c f hwf
  cases c with
  | asCollection cc => exact absurd rfl (hnc cc)
  | asFloat q =>
    have ht : f &&& 127 = 0 ∨ f &&& 127 = 12 := by
      rcases hcases with h | h | h | h | h | h | h | h
      · exact Or.inl h
      · exact absurd h.2.choose_spec (by simp)
      · exact absurd h.2.choose_spec.1 (by simp)
      · exact absurd h.2.choose_spec.1 (by simp)
      · exact Or.inr h.1
      · exact absurd h.2.choose_spec (by simp)
      · exact absurd h.2.choose_spec (by simp)
      · exact absurd h.2.choose_spec (by simp)
    have hcf : VariantData.copyFromData (.mk sc sf) (.mk (.asFloat q) f) rm =
        (true, .mk (.asFloat q) f, rm) := by
      rcases ht with h | h <;>
        simp [VariantData.copyFromData, VALUE_MASK, VALUE_IS_ARRAY, VALUE_IS_OBJECT,
          VALUE_IS_OWNED_STRING, VALUE_IS_RAW_STRING, h]
    rw [hcf]
    refine ⟨rfl, ?_, by simp [VariantData.slotAddrs], by simp [VariantData.slotCount],
      rfl⟩
    simp only [compareEq]
    exact scalarEquals_self _ f (by omega)
  | asBoolean b =>
    have ht : f &&& 127 = 0 ∨ f &&& 127 = 6 := by
      rcases hcases with h | h | h | h | h | h | h | h
      · exact Or.inl h
      · exact Or.inr h.1
      · exact absurd h.2.choose_spec.1 (by simp)
      · exact absurd h.2.choose_spec.1 (by simp)
      · exact absurd h.2.choose_spec (by simp)
      · exact absurd h.2.choose_spec (by simp)
      · exact absurd h.2.choose_spec (by simp)
      · exact absurd h.2.choose_spec (by simp)
    have hcf : VariantData.copyFromData (.mk sc sf) (.mk (.asBoolean b) f) rm =
        (true, .mk (.asBoolean b) f, rm) := by
      rcases ht with h | h <;>
        simp [VariantData.copyFromData, VALUE_MASK, VALUE_IS_ARRAY, VALUE_IS_OBJECT,
          VALUE_IS_OWNED_STRING, VALUE_IS_RAW_STRING, h]
    rw [hcf]
    refine ⟨rfl, ?_, by simp [VariantData.slotAddrs], by simp [VariantData.slotCount],
      rfl⟩
    simp only [compareEq]
    exact scalarEquals_self _ f (by omega)
  | asUnsignedInteger u =>
    have ht : f &&& 127 = 0 ∨ f &&& 127 = 8 := by
      rcases hcases with h | h | h | h | h | h | h | h
      · exact Or.inl h
      · exact absurd h.2.choose_spec (by simp)
      · exact Or.inr h.1
      · exact absurd h.2.choose_spec.1 (by simp)
      · exact absurd h.2.choose_spec (by simp)
      · exact absurd h.2.choose_spec (by simp)
      · exact absurd h.2.choose_spec (by simp)
      · exact absurd h.2.choose_spec (by simp)
    have hcf : VariantData.copyFromData (.mk sc sf) (.mk (.asUnsignedInteger u) f) rm =
        (true, .mk (.asUnsignedInteger u) f, rm) := by
      rcases ht with h | h <;>
        simp [VariantData.copyFromData, VALUE_MASK, VALUE_IS_ARRAY, VALUE_IS_OBJECT,
          VALUE_IS_OWNED_STRING, VALUE_IS_RAW_STRING, h]
    rw [hcf]
    refine ⟨rfl, ?_, by simp [VariantData.slotAddrs], by simp [VariantData.slotCount],
      rfl⟩
    simp only [compareEq]
    exact scalarEquals_self _ f (by omega)
  | asSignedInteger i =>
    have ht : f &&& 127 = 0 ∨ f &&& 127 = 10 := by
      rcases hcases with h | h | h | h | h | h | h | h
      · exact Or.inl h
      · exact absurd h.2.choose_spec (by simp)
      · exact absurd h.2.choose_spec.1 (by simp)
      · exact Or.inr h.1
      · exact absurd h.2.choose_spec (by simp)
      · exact absurd h.2.choose_spec (by simp)
      · exact absurd h.2.choose_spec (by simp)
      · exact absurd h.2.choose_spec (by simp)
    have hcf : VariantData.copyFromData (.mk sc sf) (.mk (.asSignedInteger i) f) rm =
        (true, .mk (.asSignedInteger i) f, rm) := by
      rcases ht with h | h <;>
        simp [VariantData.copyFromData, VALUE_MASK, VALUE_IS_ARRAY, VALUE_IS_OBJECT,
          VALUE_IS_OWNED_STRING, VALUE_IS_RAW_STRING, h]
    rw [hcf]
    refine ⟨rfl, ?_, by simp [VariantData.slotAddrs], by simp [VariantData.slotCount],
      rfl⟩
    simp only [compareEq]
    exact scalarEquals_self _ f (by omega)
  | asLinkedString t =>
    have ht : f &&& 127 = 0 ∨ f &&& 127 = 4 := by
      rcases hcases with h | h | h | h | h | h | h | h
      · exact Or.inl h
      · exact absurd h.2.choose_spec (by simp)
      · exact absurd h.2.choose_spec.1 (by simp)
      · exact absurd h.2.choose_spec.1 (by simp)
      · exact absurd h.2.choose_spec (by simp)
      · exact Or.inr h.1
      · exact absurd h.2.choose_spec (by simp)
      · exact absurd h.2.choose_spec (by simp)
    have hcf : VariantData.copyFromData (.mk sc sf) (.mk (.asLinkedString t) f) rm =
        (true, .mk (.asLinkedString t) f, rm) := by
      rcases ht with h | h <;>
        simp [VariantData.copyFromData, VALUE_MASK, VALUE_IS_ARRAY, VALUE_IS_OBJECT,
          VALUE_IS_OWNED_STRING, VALUE_IS_RAW_STRING, h]
    rw [hcf]
    refine ⟨rfl, ?_, by simp [VariantData.slotAddrs], by simp [VariantData.slotCount],
      rfl⟩
    simp only [compareEq]
    exact scalarEquals_self _ f (by omega)
  | asOwnedString n =>
    have ht : f &&& 127 = 0 ∨ f &&& 127 = 5 ∨ f &&& 127 = 3 := by
      rcases hcases with h | h | h | h | h | h | h | h
      · exact Or.inl h
      · exact absurd h.2.choose_spec (by simp)
      · exact absurd h.2.choose_spec.1 (by simp)
      · exact absurd h.2.choose_spec.1 (by simp)
      · exact absurd h.2.choose_spec (by simp)
      · exact absurd h.2.choose_spec (by simp)
      · rcases h.1 with h5 | h3
        · exact Or.inr (Or.inl h5)
        · exact Or.inr (Or.inr h3)
      · exact absurd h.2.choose_spec (by simp)
    rcases ht with h | h | h
    · have hcf : VariantData.copyFromData (.mk sc sf) (.mk (.asOwnedString n) f) rm =
          (true, .mk (.asOwnedString n) f, rm) := by
        simp [VariantData.copyFromData, VALUE_MASK, VALUE_IS_ARRAY, VALUE_IS_OBJECT,
          VALUE_IS_OWNED_STRING, VALUE_IS_RAW_STRING, h]
      rw [hcf]
      refine ⟨rfl, ?_, by simp [VariantData.slotAddrs], by simp [VariantData.slotCount],
        rfl⟩
      simp only [compareEq]
      exact scalarEquals_self _ f (by omega)
    · have hcf : VariantData.copyFromData (.mk sc sf) (.mk (.asOwnedString n) f) rm =
          (true, (VariantData.mk sc sf).setOwnedString ⟨n.data⟩,
           { rm with pool := poolIncr rm.pool n.data }) := by
        simp [VariantData.copyFromData, VALUE_MASK, VALUE_IS_ARRAY, VALUE_IS_OBJECT,
          VALUE_IS_OWNED_STRING, VALUE_IS_RAW_STRING, h,
          VariantContent.readOwnedString, ResourceManager.saveString, hstr]
      rw [hcf]
      refine ⟨rfl, ?_, ?_, by simp [VariantData.slotCount], rfl⟩
      · have hat : ((sf &&& 128) ||| 5) &&& 127 = 5 :=
          or_t_land_127 sf 5 (by decide)
        simp only [VariantData.setOwnedString, VariantData.setType, VariantData.flags_,
          VALUE_IS_OWNED_STRING, OWNED_KEY_BIT]
        simp only [compareEq]
        simp [scalarEquals, VariantData.type, VariantData.flags_, hat, h, VALUE_MASK,
          VALUE_IS_NULL, VALUE_IS_BOOLEAN, typeIsNumeric, VALUE_IS_UNSIGNED_INTEGER,
          VALUE_IS_SIGNED_INTEGER, VALUE_IS_FLOAT, VariantData.isString,
          VALUE_IS_LINKED_STRING, VALUE_IS_OWNED_STRING, VariantData.stringText,
          VariantData.content_, VariantContent.readOwnedString]
      · simp [VariantData.setOwnedString, VariantData.setType, VariantData.slotAddrs]
    · have hcf : VariantData.copyFromData (.mk sc sf) (.mk (.asOwnedString n) f) rm =
          (true, (VariantData.mk sc sf).setRawString ⟨n.data⟩,
           { rm with pool := poolIncr rm.pool n.data }) := by
        simp [VariantData.copyFromData, VALUE_MASK, VALUE_IS_ARRAY, VALUE_IS_OBJECT,
          VALUE_IS_OWNED_STRING, VALUE_IS_RAW_STRING, h,
          VariantContent.readOwnedString, ResourceManager.saveString, hstr]
      rw [hcf]
      refine ⟨rfl, ?_, ?_, by simp [VariantData.slotCount], rfl⟩
      · have hat : ((sf &&& 128) ||| 3) &&& 127 = 3 :=
          or_t_land_127 sf 3 (by decide)
        simp only [VariantData.setRawString, VariantData.setType, VariantData.flags_,
          VALUE_IS_RAW_STRING, OWNED_KEY_BIT]
        simp only [compareEq]
        simp [scalarEquals, VariantData.type, VariantData.flags_, hat, h, VALUE_MASK,
          VALUE_IS_NULL, VALUE_IS_BOOLEAN, typeIsNumeric, VALUE_IS_UNSIGNED_INTEGER,
          VALUE_IS_SIGNED_INTEGER, VALUE_IS_FLOAT, VariantData.isString,
          VALUE_IS_LINKED_STRING, VALUE_IS_OWNED_STRING, VALUE_IS_RAW_STRING,
          VariantData.rawText, VariantData.content_, VariantContent.readOwnedString]
      · simp [VariantData.setRawString, VariantData.setType, VariantData.slotAddrs]


theorem add_slots_eq (acc : CollectionData) (s : VariantSlot)
    (hacc : acc.tail = 0 → acc.slots = []) :
    (acc.add s).slots = acc.slots ++ [s] := by
  obtain ⟨h0, t0, s0⟩ := acc
  simp only [CollectionData.tail, CollectionData.slots] at hacc ⊢
  by_cases h : t0 = 0
  · simp [CollectionData.add, CollectionData.tail, CollectionData.head,
      CollectionData.slots, h, hacc h]
  · simp [CollectionData.add, CollectionData.tail, CollectionData.head,
      CollectionData.slots, h]

theorem add_tail_eq (acc : CollectionData) (s : VariantSlot) :
    (acc.add s).tail = s.addr := by
  obtain ⟨h0, t0, s0⟩ := acc
  by_cases h : t0 = 0 <;>
    simp [CollectionData.add, CollectionData.tail, CollectionData.head,
      CollectionData.slots, h]

mutual

theorem copyFromData_spec (src self : VariantData) (rm : ResourceManager)
    (hwf : src.wf = true) (hkeys : src.keysOk = true)
    (hsz : src.slotCount ≤ rm.freeSlots.length)
    (hnz : ∀ a ∈ rm.freeSlots, a ≠ 0)
    (hstr : rm.stringOk = true) :
    (VariantData.copyFromData self src rm).1 = true ∧
    compareEq (VariantData.copyFromData self src rm).2.1 src = true ∧
    (∀ a ∈ (VariantData.copyFromData self src rm).2.1.slotAddrs, a ∈ rm.freeSlots) ∧
    (VariantData.copyFromData self src rm).2.2.freeSlots =
      rm.freeSlots.drop src.slotCount ∧
    (VariantData.copyFromData self src rm).2.2.stringOk = rm.stringOk :=
  match src, hwf, hkeys, hsz with
  | .mk (.asCollection (.mk hd tl ss)) f, hwf, hkeys, hsz => by
    simp only [VariantData.wf, VALUE_MASK, VALUE_IS_ARRAY, VALUE_IS_OBJECT,
      Bool.and_eq_true, Bool.or_eq_true, beq_iff_eq, decide_eq_true_eq] at hwf
    obtain ⟨⟨hf256, hfk⟩, hsswf⟩ := hwf
    simp only [VariantData.keysOk, VALUE_MASK, VALUE_IS_OBJECT,
      Bool.and_eq_true] at hkeys
    obtain ⟨hobj, hssk⟩ := hkeys
    simp only [VariantData.slotCount] at hsz
    rcases hfk with harr | hobjf
    · have hcs := copySlots_spec false emptyCollection ss rm (fun _ => rfl)
        hsswf hssk hsz hnz hstr
      obtain ⟨hok, ⟨m, hm, hfa, haddrs⟩, hfree, hstrok⟩ := hcs
      rcases hc2 : (copySlots false emptyCollection ss rm).2.1 with ⟨ch, ct, cslots⟩
      rw [hc2] at hm
      simp only [emptyCollection, CollectionData.slots, List.nil_append] at hm
      have hstep : VariantData.copyFromData self (.mk (.asCollection (.mk hd tl ss)) f) rm =
          ((copySlots false emptyCollection ss rm).1,
           .mk (.asCollection (copySlots false emptyCollection ss rm).2.1)
             ((self.toArray).flags_),
           (copySlots false emptyCollection ss rm).2.2) := by
        simp [VariantData.copyFromData, VALUE_MASK, VALUE_IS_ARRAY, harr]
      rw [hstep]
      refine ⟨hok, ?_, ?_, ?_, hstrok⟩
      · show compareEq (VariantData.mk (.asCollection (copySlots false emptyCollection ss rm).2.1)
            ((self.toArray).flags_)) (.mk (.asCollection (.mk hd tl ss)) f) = true
        rw [hc2]
        have hta : (self.toArray).flags_ &&& 127 = 64 := by
          simp only [VariantData.toArray, VariantData.setType, VariantData.flags_,
            OWNED_KEY_BIT, VALUE_IS_ARRAY]
          exact or_t_land_127 _ 64 (by decide)
        simp only [compareEq]
        simp only [VALUE_MASK, VALUE_IS_ARRAY, VALUE_IS_OBJECT, hta, harr]
        rw [hm]
        simp [arrayEqualsGo_of_copied false hfa]
      · show ∀ a ∈ (VariantData.mk (.asCollection (copySlots false emptyCollection ss rm).2.1)
            ((self.toArray).flags_)).slotAddrs, a ∈ rm.freeSlots
        rw [hc2]
        simp only [VariantData.slotAddrs]
        rw [hm]
        exact haddrs
      · show (copySlots false emptyCollection ss rm).2.2.freeSlots =
          rm.freeSlots.drop ((VariantData.mk (.asCollection (.mk hd tl ss)) f).slotCount)
        simp only [VariantData.slotCount]
        exact hfree
    · have hcs := copySlots_spec true emptyCollection ss rm (fun _ => rfl)
        hsswf hssk hsz hnz hstr
      obtain ⟨hok, ⟨m, hm, hfa, haddrs⟩, hfree, hstrok⟩ := hcs
      rcases hc2 : (copySlots true emptyCollection ss rm).2.1 with ⟨ch, ct, cslots⟩
      rw [hc2] at hm
      simp only [emptyCollection, CollectionData.slots, List.nil_append] at hm
      simp only [hobjf, beq_self_eq_true, if_true, Bool.and_eq_true, List.all_eq_true,
        decide_eq_true_eq] at hobj
      obtain ⟨hall, hnd⟩ := hobj
      have hstep : VariantData.copyFromData self (.mk (.asCollection (.mk hd tl ss)) f) rm =
          ((copySlots true emptyCollection ss rm).1,
           .mk (.asCollection (copySlots true emptyCollection ss rm).2.1)
             ((self.toObject).flags_),
           (copySlots true emptyCollection ss rm).2.2) := by
        simp [VariantData.copyFromData, VALUE_MASK, VALUE_IS_ARRAY, VALUE_IS_OBJECT, hobjf]
      rw [hstep]
      refine ⟨hok, ?_, ?_, ?_, hstrok⟩
      · show compareEq (VariantData.mk (.asCollection (copySlots true emptyCollection ss rm).2.1)
            ((self.toObject).flags_)) (.mk (.asCollection (.mk hd tl ss)) f) = true
        rw [hc2]
        have hto : (self.toObject).flags_ &&& 127 = 32 := by
          simp only [VariantData.toObject, VariantData.setType, VariantData.flags_,
            OWNED_KEY_BIT, VALUE_IS_OBJECT]
          exact or_t_land_127 _ 32 (by decide)
        simp only [compareEq]
        simp only [VALUE_MASK, VALUE_IS_ARRAY, VALUE_IS_OBJECT, hto, hobjf]
        rw [hm]
        simp [objectEquals_of_copied (.mk hd tl ss) m hfa hall hnd]
      · show ∀ a ∈ (VariantData.mk (.asCollection (copySlots true emptyCollection ss rm).2.1)
            ((self.toObject).flags_)).slotAddrs, a ∈ rm.freeSlots
        rw [hc2]
        simp only [VariantData.slotAddrs]
        rw [hm]
        exact haddrs
      · show (copySlots true emptyCollection ss rm).2.2.freeSlots =
          rm.freeSlots.drop ((VariantData.mk (.asCollection (.mk hd tl ss)) f).slotCount)
        simp only [VariantData.slotCount]
        exact hfree
  | .mk (.asFloat q) f, hwf, _, _ => by
    exact scalarCopy_spec (.asFloat q) f self rm hwf hstr (fun cc h => by simp at h)
  | .mk (.asBoolean b) f, hwf, _, _ => by
    exact scalarCopy_spec (.asBoolean b) f self rm hwf hstr (fun cc h => by simp at h)
  | .mk (.asUnsignedInteger u) f, hwf, _, _ => by
    exact scalarCopy_spec (.asUnsignedInteger u) f self rm hwf hstr (fun cc h => by simp at h)
  | .mk (.asSignedInteger i) f, hwf, _, _ => by
    exact scalarCopy_spec (.asSignedInteger i) f self rm hwf hstr (fun cc h => by simp at h)
  | .mk (.asLinkedString t) f, hwf, _, _ => by
    exact scalarCopy_spec (.asLinkedString t) f self rm hwf hstr (fun cc h => by simp at h)
  | .mk (.asOwnedString n) f, hwf, _, _ => by
    exact scalarCopy_spec (.asOwnedString n) f self rm hwf hstr (fun cc h => by simp at h)

theorem copySlots_spec (copyKeys : Bool) (acc : CollectionData) (ss : List VariantSlot)
    (rm : ResourceManager)
    (hacc : acc.tail = 0 → acc.slots = [])
    (hswf : slotsWf ss = true) (hsk : slotsKeysOk ss = true)
    (hsz : slotsCount ss ≤ rm.freeSlots.length)
    (hnz : ∀ a ∈ rm.freeSlots, a ≠ 0)
    (hstr : rm.stringOk = true) :
    (copySlots copyKeys acc ss rm).1 = true ∧
    (∃ m, (copySlots copyKeys acc ss rm).2.1.slots = acc.slots ++ m ∧
      List.Forall₂ (SlotCopied copyKeys) m ss ∧
      ∀ a ∈ slotsAddrs m, a ∈ rm.freeSlots) ∧
    (copySlots copyKeys acc ss rm).2.2.freeSlots = rm.freeSlots.drop (slotsCount ss) ∧
    (copySlots copyKeys acc ss rm).2.2.stringOk = rm.stringOk :=
  match ss, hswf, hsk, hsz with
  | [], _, _, _ => by
    refine ⟨rfl, ⟨[], by simp [copySlots], List.Forall₂.nil, ?_⟩,
      by simp [copySlots, slotsCount], rfl⟩
    intro a ha
    simp [slotsAddrs] at ha
  | .mk a0 k o dv :: rest, hswf, hsk, hsz => by
    simp only [slotsWf, Bool.and_eq_true, decide_eq_true_eq] at hswf
    obtain ⟨⟨ha0ne, hdwf⟩, hrwf⟩ := hswf
    simp only [slotsKeysOk, Bool.and_eq_true] at hsk
    obtain ⟨hdk, hrk⟩ := hsk
    rcases hfs : rm.freeSlots with _ | ⟨addr, frest⟩
    · rw [hfs] at hsz
      simp only [slotsCount, List.length_nil] at hsz
      omega
    · rw [← hfs]
      have haddr_mem : addr ∈ rm.freeSlots := by
        rw [hfs]; exact List.mem_cons_self _ _
      have haddr_ne : addr ≠ 0 := hnz addr haddr_mem
      have hfrest_sub : ∀ a ∈ frest, a ∈ rm.freeSlots := by
        intro a ha; rw [hfs]; exact List.mem_cons_of_mem _ ha
      have halloc : rm.allocSlot = some (addr, { rm with freeSlots := frest }) := by
        simp [ResourceManager.allocSlot, hfs]
      have hcont : ∀ (kp1 : Option String) (kp2 : Bool) (rm2 : ResourceManager)
          (res : Bool × CollectionData × ResourceManager),
          kp1 = (if copyKeys then k else none) → rm2.freeSlots = frest →
          rm2.stringOk = true →
          res = (if (VariantData.copyFromData VariantData.null dv rm2).1 = true then
              copySlots copyKeys
                (acc.add (VariantSlot.mk addr kp1 kp2
                  (VariantData.copyFromData VariantData.null dv rm2).2.1))
                rest (VariantData.copyFromData VariantData.null dv rm2).2.2
            else (false,
              acc.add (VariantSlot.mk addr kp1 kp2
                (VariantData.copyFromData VariantData.null dv rm2).2.1),
              (VariantData.copyFromData VariantData.null dv rm2).2.2)) →
          (res.1 = true ∧
           (∃ m, res.2.1.slots = acc.slots ++ m ∧
             List.Forall₂ (SlotCopied copyKeys) m (VariantSlot.mk a0 k o dv :: rest) ∧
             ∀ a ∈ slotsAddrs m, a ∈ rm.freeSlots) ∧
           res.2.2.freeSlots = rm.freeSlots.drop (slotsCount (VariantSlot.mk a0 k o dv :: rest)) ∧
           res.2.2.stringOk = rm.stringOk) := by
        intro kp1 kp2 rm2 res hkp hf2 hs2 hres
        have hlen2 : VariantData.slotCount dv ≤ rm2.freeSlots.length := by
          rw [hf2]
          rw [hfs] at hsz
          simp only [slotsCount, List.length_cons] at hsz
          omega
        have hsub2 : ∀ a ∈ rm2.freeSlots, a ≠ 0 := by
          intro a ha
          rw [hf2] at ha
          exact hnz a (hfrest_sub a ha)
        have hdv := copyFromData_spec dv VariantData.null rm2 hdwf hdk hlen2 hsub2 hs2
        split at hres
        · obtain ⟨hok1, hcmp1, haddr1, hfree1, hstr1⟩ := hdv
          subst hres
          have hfree1f : (VariantData.copyFromData VariantData.null dv rm2).2.2.freeSlots =
              frest.drop dv.slotCount := by rw [hfree1, hf2]
          have hstr1t : (VariantData.copyFromData VariantData.null dv rm2).2.2.stringOk =
              true := hstr1.trans hs2
          have hacc2 : (acc.add (VariantSlot.mk addr kp1 kp2
              (VariantData.copyFromData VariantData.null dv rm2).2.1)).tail = 0 →
              (acc.add (VariantSlot.mk addr kp1 kp2
                (VariantData.copyFromData VariantData.null dv rm2).2.1)).slots = [] := by
            intro h0
            rw [add_tail_eq] at h0
            simp only [VariantSlot.addr] at h0
            exact absurd h0 haddr_ne
          have hszrest : slotsCount rest ≤
              (VariantData.copyFromData VariantData.null dv rm2).2.2.freeSlots.length := by
            rw [hfree1f, List.length_drop]
            rw [hfs] at hsz
            simp only [slotsCount, List.length_cons] at hsz
            omega
          have hmem3 : ∀ a ∈ (VariantData.copyFromData VariantData.null dv rm2).2.2.freeSlots,
              a ∈ rm.freeSlots := by
            intro a ha
            rw [hfree1f] at ha
            exact hfrest_sub a (List.mem_of_mem_drop ha)
          have hnz3 : ∀ a ∈ (VariantData.copyFromData VariantData.null dv rm2).2.2.freeSlots,
              a ≠ 0 := fun a ha => hnz a (hmem3 a ha)
          have hrest := copySlots_spec copyKeys
            (acc.add (VariantSlot.mk addr kp1 kp2
              (VariantData.copyFromData VariantData.null dv rm2).2.1))
            rest (VariantData.copyFromData VariantData.null dv rm2).2.2
            hacc2 hrwf hrk hszrest hnz3 hstr1t
          obtain ⟨hok2, ⟨m2, hm2, hfa2, haddrs2⟩, hfree2, hstr2⟩ := hrest
          refine ⟨hok2, ⟨VariantSlot.mk addr kp1 kp2
              (VariantData.copyFromData VariantData.null dv rm2).2.1 :: m2, ?_, ?_, ?_⟩,
            ?_, ?_⟩
          · rw [hm2, add_slots_eq acc _ hacc, List.append_assoc, List.singleton_append]
          · refine List.Forall₂.cons ⟨?_, ?_⟩ hfa2
            · simpa [VariantSlot.key] using hkp
            · simpa [VariantSlot.data] using hcmp1
          · intro a ha
            simp only [slotsAddrs, List.mem_cons, List.mem_append] at ha
            rcases ha with h1 | h2 | h3
            · rw [h1]; exact haddr_mem
            · have : a ∈ rm2.freeSlots := haddr1 a h2
              rw [hf2] at this
              exact hfrest_sub a this
            · exact hmem3 a (haddrs2 a h3)
          · have hdrop : slotsCount (VariantSlot.mk a0 k o dv :: rest) =
                (slotsCount rest + VariantData.slotCount dv) + 1 := by
              simp only [slotsCount]; omega
            rw [hfree2, hfree1f, List.drop_drop, hfs, hdrop, List.drop_succ_cons]
            congr 1
            omega
          · rw [hstr2, hstr1t, hstr]
        · rename_i hcond
          exact absurd hdv.1 hcond
      cases copyKeys with
      | false =>
        refine hcont none false { rm with freeSlots := frest }
          (copySlots false acc (VariantSlot.mk a0 k o dv :: rest) rm) rfl rfl hstr ?_
        simp [copySlots, halloc]
      | true =>
        cases k with
        | none =>
          refine hcont none false { rm with freeSlots := frest }
            (copySlots true acc (VariantSlot.mk a0 none o dv :: rest) rm) rfl rfl hstr ?_
          simp [copySlots, halloc]
        | some kk =>
          cases o with
          | false =>
            refine hcont (some kk) false { rm with freeSlots := frest }
              (copySlots true acc (VariantSlot.mk a0 (some kk) false dv :: rest) rm)
              rfl rfl hstr ?_
            simp [copySlots, halloc]
          | true =>
            have hsave : ({ rm with freeSlots := frest } : ResourceManager).saveString kk =
                some (⟨kk⟩, { rm with freeSlots := frest, pool := poolIncr rm.pool kk }) := by
              simp [ResourceManager.saveString, hstr]
            refine hcont (some kk) true
              { rm with freeSlots := frest, pool := poolIncr rm.pool kk }
              (copySlots true acc (VariantSlot.mk a0 (some kk) true dv :: rest) rm)
              rfl rfl hstr ?_
            simp [copySlots, halloc, hsave]

end


/-- C4 (counterexample): an object holding a duplicate key (x:1 then x:2, which the
spec allows through low-level insertion) is deep-copied successfully, yet the copy is
not value-equal to the source under the §4.3 rules — each left member is matched
against the first right member with its key, so the copied x:2 compares against the
source's x:1. -/
theorem copyFrom_duplicate_keys_cex :
    (VariantData.null.copyFrom (some dupKeyObj) rmFive).1 = true ∧
    compareEq (VariantData.null.copyFrom (some dupKeyObj) rmFive).2.1 dupKeyObj = false := by
  decide

/-- C4 as amended: for a well-formed source document whose objects carry no duplicate
keys, when every arena allocation succeeds (enough free addresses, all non-null and
distinct from the source's own slot addresses) and the string pool works, `copyFrom`
into a fresh null cell succeeds, the copy is value-equal to the source under the §4.3
rules, and the copy is independent of the source: every slot of the copy lives at a
fresh arena address, none shared with the source document. -/
theorem copyFrom_deep_copy (D : VariantData) (rm : ResourceManager)
    (hwf : D.wf = true) (hkeys : D.keysOk = true)
    (hsz : D.slotCount ≤ rm.freeSlots.length)
    (hnz : ∀ a ∈ rm.freeSlots, a ≠ 0)
    (hdisj : ∀ a ∈ D.slotAddrs, a ∉ rm.freeSlots)
    (hstr : rm.stringOk = true) :
    (VariantData.null.copyFrom (some D) rm).1 = true ∧
    compareEq (VariantData.null.copyFrom (some D) rm).2.1 D = true ∧
    ∀ a ∈ (VariantData.null.copyFrom (some D) rm).2.1.slotAddrs, a ∉ D.slotAddrs := by
  have hrel : VariantData.null.release rm = rm := by
    simp [VariantData.null, VariantData.release, OWNED_VALUE_BIT, VALUE_IS_NULL]
  have hstep : VariantData.null.copyFrom (some D) rm =
      VariantData.copyFromData VariantData.null D rm := by
    simp [VariantData.copyFrom, hrel]
  have h := copyFromData_spec D VariantData.null rm hwf hkeys hsz hnz hstr
  rw [hstep]
  refine ⟨h.1, h.2.1, ?_⟩
  intro a ha hmem
  exact hdisj a hmem (h.2.2.1 a ha)

/-- Witness for C4: copying the two-member object x:1, y:2 with five fresh non-null
arena addresses succeeds, the copy compares equal to the source, and it reuses none of
the source's slot addresses. -/
theorem copyFrom_deep_copy_witness :
    (objXY.wf = true ∧ objXY.keysOk = true ∧
     objXY.slotCount ≤ rmFive.freeSlots.length ∧
     (∀ a ∈ rmFive.freeSlots, a ≠ 0) ∧
     (∀ a ∈ objXY.slotAddrs, a ∉ rmFive.freeSlots) ∧
     rmFive.stringOk = true) ∧
    ((VariantData.null.copyFrom (some objXY) rmFive).1 = true ∧
     compareEq (VariantData.null.copyFrom (some objXY) rmFive).2.1 objXY = true ∧
     ∀ a ∈ (VariantData.null.copyFrom (some objXY) rmFive).2.1.slotAddrs,
       a ∉ objXY.slotAddrs) :=
  ⟨⟨by decide, by decide, by decide, by decide, by decide, rfl⟩,
   copyFrom_deep_copy objXY rmFive (by decide) (by decide) (by decide) (by decide)
     (by decide) rfl⟩

end ArduinoJsonModel
